import Mathlib

/-!
# sbpl_perception: the search-state engine of `EnvObjectRecognition`

A shallow embedding of `search_env.h` / `search_env.cpp`.

Conventions of the embedding

* C++ `double` values are idealised as rationals (`ℚ`): exact arithmetic, no NaN, no
  infinities, no rounding.  Decimal literals such as `0.02` denote the exact rational.
* `int` values are `Int`; `unsigned short` depth samples and container sizes are `Nat`.
* `std::vector` is `List`.  A read `v[i]` is `List.getD v i d`; the source never reads outside
  the vector on the inputs the theorems are instantiated at, and the value `d` that stands
  for such a read is the default-constructed element.
* `std::unordered_map<int, State>` is an association list with pairwise distinct keys, listed
  in the iteration order of the container.  The C++ standard leaves the iteration order after
  an insertion unspecified; the embedding takes that order as a parameter `ord`, a function
  that may permute the entries, and the theorems hold for every such `ord`.
* External collaborators (renderer, k-d tree, ICP) are fields of `Env`.
-/

namespace SbplPerception

/-! ## Numeric helpers (`<cmath>`) -/

/-- C `fabs`. -/
def fabs (x : ℚ) : ℚ := if x < 0 then -x else x

/-- C `trunc`: rounding toward zero. -/
def trunc (x : ℚ) : Int := Int.tdiv x.num x.den

/-- C `fmod(x, m)`: `x - trunc(x / m) * m`, the remainder carrying the sign of `x`. -/
def fmod (x m : ℚ) : ℚ := x - (trunc (x / m) : ℚ) * m

/-- The function `WrapAngle` of `search_env.h` (lines 47-55). -/
def WrapAngle (x : ℚ) : ℚ :=
  let x1 := fmod x 360
  if x1 < 0 then x1 + 360 else x1

/-! ## Data model (`search_env.h`) -/

/-- The struct `Pose`: a continuous planar pose. -/
structure Pose where
  x : ℚ
  y : ℚ
  theta : ℚ
deriving DecidableEq

/-- The default constructor `Pose()`. -/
instance : Inhabited Pose := ⟨⟨0, 0, 0⟩⟩

/-- The method `Pose::Equals` (lines 84-92). -/
def Pose.Equals (self p : Pose) (symmetric : Bool) : Bool :=
  if fabs (self.x - p.x) < 0.02 ∧ fabs (self.y - p.y) < 0.02 ∧
      (symmetric = true ∨ fabs (WrapAngle self.theta - WrapAngle p.theta) < 0.1) then
    true
  else
    false

/-- The struct `DiscPose`. -/
structure DiscPose where
  x : Int
  y : Int
  theta : Int
deriving DecidableEq

/-- The struct `State`: three parallel vectors. -/
structure State where
  object_ids : List Int
  disc_object_poses : List DiscPose
  object_poses : List Pose
deriving DecidableEq

/-- A default-constructed `State` (three empty vectors). -/
def State.empty : State := ⟨[], [], []⟩

instance : Inhabited State := ⟨State.empty⟩

/-- The struct `StateProperties`. -/
structure StateProperties where
  last_min_depth : Nat
  last_max_depth : Nat
deriving DecidableEq

/-- The part of `EnvParams` that the embedded functions read. -/
structure EnvParams where
  table_height : ℚ
  x_min : ℚ
  x_max : ℚ
  y_min : ℚ
  y_max : ℚ
  res : ℚ
  theta_res : ℚ
  img_width : Int
  img_height : Int
  num_objects : Int
  num_models : Int
  goal_state_id : Int
  start_state_id : Int

/-- The part of class `ObjectModel` that the embedded functions read: the bounding box of the
mesh and the symmetry flag. -/
structure ObjectModel where
  min_x : ℚ
  max_x : ℚ
  min_y : ℚ
  max_y : ℚ
  max_z : ℚ
  symmetric : Bool

instance : Inhabited ObjectModel := ⟨⟨0, 0, 0, 0, 0, false⟩⟩

/-- The method `ObjectModel::GetInscribedRadius` (`object_model.cpp`, line 308). -/
def ObjectModel.GetInscribedRadius (m : ObjectModel) : ℚ :=
  min (fabs (m.max_x - m.min_x)) (fabs (m.max_y - m.min_y)) / 2

/-- The method `ObjectModel::GetCircumscribedRadius` (`object_model.cpp`, line 312). -/
def ObjectModel.GetCircumscribedRadius (m : ObjectModel) : ℚ :=
  max (fabs (m.max_x - m.min_x)) (fabs (m.max_y - m.min_y)) / 2

/-- A point of a PCL cloud (`PointT`). -/
structure PointT where
  x : ℚ
  y : ℚ
  z : ℚ
deriving DecidableEq

/-- The members of `EnvObjectRecognition` that are fixed during a search episode, together with
the external collaborators the embedded methods call.

* `knn_radiusSearch pt r` is the value returned by `knn->radiusSearch(pt, r, indices, dists, 1)`,
  the number of neighbours found in the observed cloud.
* `doSim s` is the float depth buffer the simulator holds after the scene of `s` was rendered.
* `get_depth_image_uint buf` is the `unsigned short` depth image computed from that buffer.
* `getPointCloudFromBuffer buf` is the cloud built from a float buffer.
* `icp cloud pose_in` is the pose written to `pose_out` by `GetICPAdjustedPose`.
* `num_proc` is the size of the process pool; `sorted_greedy_icp_ids_` and
  `sorted_greedy_icp_scores_` are the two vectors `ComputeGreedyICPPoses` stores. -/
structure Env where
  env_params_ : EnvParams
  obj_models_ : List ObjectModel
  num_proc : Int
  sorted_greedy_icp_ids_ : List Int
  sorted_greedy_icp_scores_ : List ℚ
  knn_radiusSearch : PointT → ℚ → Nat
  doSim : State → List ℚ
  get_depth_image_uint : List ℚ → List Nat
  getPointCloudFromBuffer : List ℚ → List PointT
  icp : List PointT → Pose → Pose

/-- The read `obj_models_[model_id]`.  An index outside the vector, which the source never
checks, reads a default model (all sizes 0, not symmetric). -/
def Env.model (env : Env) (model_id : Int) : ObjectModel :=
  if 0 ≤ model_id then env.obj_models_.getD model_id.toNat default else default

/-! ## State equality (`search_env.cpp`, lines 322-355) -/

/-- The inner loop of `StatesEqual`: the first index `jj` with `ids[jj] == v`; `none` stands for
the value `-1` that `idx` keeps when the loop finds nothing. -/
def firstIndex (v : Int) : List Int → Option Nat
  | [] => none
  | x :: xs => if x = v then some 0 else (firstIndex v xs).map (· + 1)

/-- The flag computed by `bool symmetric = false; if (model_id != -1) symmetric =
obj_models_[model_id].symmetric();` in `StatesEqual` and `StatesEqualOrdered`. -/
def modelSymmetric (env : Env) (model_id : Int) : Bool :=
  if model_id ≠ -1 then (env.model model_id).symmetric else false

/-- The method `EnvObjectRecognition::StatesEqual`. -/
def StatesEqual (env : Env) (s1 s2 : State) : Bool :=
  if s1.object_ids.length ≠ s2.object_ids.length then
    false
  else
    (List.range s1.object_ids.length).all fun ii =>
      match firstIndex (s1.object_ids.getD ii 0) s2.object_ids with
      | none => false
      | some idx =>
        let model_id := s1.object_ids.getD ii 0
        let symmetric := modelSymmetric env model_id
        (s1.object_poses.getD ii default).Equals (s2.object_poses.getD idx default) symmetric

/-! ## The state registry `StateMap` (`search_env.cpp`, lines 2141-2167) -/

/-- The member `StateMap`, an `unordered_map<int, State>`, as the list of its entries in
iteration order. -/
abbrev StateMapT := List (Int × State)

/-- The keys of a registry. -/
def StateMapT.keys (m : StateMapT) : List Int := m.map Prod.fst

/-- The call `StateMap.find(state_id)`; `none` stands for `StateMap.end()`. -/
def StateMap_find (m : StateMapT) (state_id : Int) : Option State :=
  (m.find? fun e => e.1 == state_id).map Prod.snd

/-- The assignment `StateMap[k] = s`: an entry with key `k` is overwritten where it stands; a
new key is inserted and the container then iterates in the order `ord` gives. -/
def StateMap_set (ord : StateMapT → StateMapT) (m : StateMapT) (k : Int) (s : State) :
    StateMapT :=
  if m.any (fun e => e.1 == k) then
    m.map fun e => if e.1 = k then (k, s) else e
  else
    ord ((k, s) :: m)

/-- The method `EnvObjectRecognition::StateToStateID`: the returned id and the registry after
the call. -/
def StateToStateID (ord : StateMapT → StateMapT) (env : Env) (m : StateMapT) (s : State) :
    Int × StateMapT :=
  match m.find? fun e => StatesEqual env s e.2 with
  | some e => (e.1, m)
  | none =>
    let new_id : Int := (m.length : Int)
    (new_id, StateMap_set ord m new_id s)

/-- The message that `StateIDToState` passes to `ROS_ERROR`. -/
def kLookupErrorMsg : String :=
  "DModel: Error. Requested State ID does not exist. Will return empty state.\n"

/-- The method `EnvObjectRecognition::StateIDToState`: the returned state and the lines it
logs through `ROS_ERROR`. -/
def StateIDToState (m : StateMapT) (state_id : Int) : State × List String :=
  match StateMap_find m state_id with
  | some s => (s, [])
  | none => (State.empty, [kLookupErrorMsg])

/-- The registry after `StateToStateID` was called on each state of `l` in turn. -/
def registerAll (ord : StateMapT → StateMapT) (env : Env) (m : StateMapT) (l : List State) :
    StateMapT :=
  l.foldl (fun acc s => (StateToStateID ord env acc s).2) m

/-- The shape of a registry that only `StateToStateID` has inserted into: distinct keys, and
the keys are `0, 1, ..., size - 1`. -/
def SequentialKeys (m : StateMapT) : Prop :=
  m.keys.Nodup ∧ ∀ k : Int, k ∈ m.keys ↔ 0 ≤ k ∧ k < (m.length : Int)

/-- One pass of the body of the merge loop of `GetSuccs` (lines 987-1008) on the registry: the
candidate with id `cand_id`, gathered state `child` (`child_result[ii]`) and gathered cost
`cost` (`cost_result[ii]`).  Returns the registry after the pass and the value pushed to
`candidate_costs`.  (The writes to `minz_map_` and `maxz_map_` touch neither.) -/
def GetSuccs_mergeOne (ord : StateMapT → StateMapT) (env : Env) (m : StateMapT)
    (cand_id : Int) (child : State) (cost : Int) : StateMapT × Int :=
  let cost1 : Int :=
    if m.any (fun e => e.1 != cand_id && StatesEqual env child e.2) then -1 else cost
  if cost1 ≠ -1 then (StateMap_set ord m cand_id child, cost1) else (m, cost1)

/-- The merge loop of `GetSuccs` (lines 987-1008) over the candidates, given as the triples
`(candidate_succ_ids[ii], child_result[ii], cost_result[ii])`: the registry after the loop and
`candidate_costs`. -/
def GetSuccs_merge (ord : StateMapT → StateMapT) (env : Env) :
    StateMapT → List (Int × State × Int) → StateMapT × List Int
  | m, [] => (m, [])
  | m, (cand_id, child, cost) :: rest =>
    let r := GetSuccs_mergeOne ord env m cand_id child cost
    let r2 := GetSuccs_merge ord env r.1 rest
    (r2.1, r.2 :: r2.2)

/-- The `double` constant `M_PI`: the binary64 number nearest to π. -/
def M_PI : ℚ := 884279719003555 / 281474976710656

/-- A non-symmetric model with a 0.1 x 0.1 footprint. -/
def demoModel0 : ObjectModel := ⟨-0.05, 0.05, -0.05, 0.05, 0.1, false⟩

/-- A symmetric model with a 0.1 x 0.1 footprint. -/
def demoModel1 : ObjectModel := ⟨-0.05, 0.05, -0.05, 0.05, 0.1, true⟩

/-- An environment with the search bounds and resolutions the constructor
`EnvObjectRecognition(int, int)` sets, two models, two objects, a pool of two processes and
a 2 x 1 image.  The observed cloud has a neighbour for every query point below z = 0.4 and
none above.  The toy renderer draws model 0 at depth 0.5 in pixel 0
and model 1 at depth 0.3 in pixel 1; background has depth 1.0 in the float buffer and 20000 in
the depth image.  The ICP returns the pose unchanged. -/
def demoEnv : Env where
  env_params_ :=
    { table_height := 0, x_min := -0.3, x_max := 0.31, y_min := -0.3, y_max := 0.31,
      res := 0.2, theta_res := 2 * M_PI / 16, img_width := 2, img_height := 1,
      num_objects := 2, num_models := 2, goal_state_id := 0, start_state_id := 1 }
  obj_models_ := [demoModel0, demoModel1]
  num_proc := 2
  sorted_greedy_icp_ids_ := [1, 0]
  sorted_greedy_icp_scores_ := [0.1, 0.2]
  knn_radiusSearch := fun pt _ => if pt.z < 0.4 then 1 else 0
  doSim := fun s =>
    [if (0 : Int) ∈ s.object_ids then 0.5 else 1, if (1 : Int) ∈ s.object_ids then 0.3 else 1]
  get_depth_image_uint := fun buf =>
    buf.map fun v => if v = 1 then 20000 else (trunc (1000 * v)).toNat
  getPointCloudFromBuffer := fun buf =>
    buf.filterMap fun v => if v = 1 then none else some ⟨0, 0, v⟩
  icp := fun _ p => p

/-- The state with the single placement of model `id` at `(x, 0, 0)`. -/
def stateAt (id : Int) (x : ℚ) : State := ⟨[id], [], [⟨x, 0, 0⟩]⟩

/-- A state that lists model 0 twice, at two poses 1 apart. -/
def dupState : State := ⟨[0, 0], [], [⟨0, 0, 0⟩, ⟨1, 0, 0⟩]⟩

/-- The goal state built by the constructor: model id `-1` at the fake pose. -/
def goal_state_ : State := ⟨[-1], [], [⟨0, 0, 0⟩]⟩

/-- The registry the constructor leaves: the goal state under 0, the empty start state under
1. -/
def initialStateMap : StateMapT := [(0, goal_state_), (1, State.empty)]

/-! ## Pose validity (`search_env.cpp`, lines 264-320) -/

/-- The method `EnvObjectRecognition::IsValidPose`. -/
def IsValidPose (env : Env) (s : State) (model_id : Int) (p : Pose) : Bool :=
  let point : PointT :=
    ⟨p.x, p.y, (env.model model_id).max_z / 2 + env.env_params_.table_height⟩
  let search_rad : ℚ :=
    (env.model model_id).GetCircumscribedRadius + env.env_params_.res / 2
  let num_neighbors_found := env.knn_radiusSearch point search_rad
  if num_neighbors_found = 0 then
    false
  else
    let rad_1 := (env.model model_id).GetInscribedRadius
    (List.range s.object_ids.length).all fun ii =>
      let obj_id := s.object_ids.getD ii 0
      let obj_pose := s.object_poses.getD ii default
      let rad_2 := (env.model obj_id).GetInscribedRadius
      if (p.x - obj_pose.x) * (p.x - obj_pose.x) + (p.y - obj_pose.y) * (p.y - obj_pose.y) <
          (rad_1 + rad_2) * (rad_1 + rad_2) then
        false
      else
        true

/-! ## Occlusion test (`search_env.cpp`, lines 1355-1406) -/

/-- The depth value of a background pixel (the literal `20000` of the source). -/
def kBackground : Nat := 20000

/-- The `for (jj ...)` loop of `IsOccluded`, with `n` iterations left, at pixel `jj`, with the
current `(new_pixel_indices, min_succ_depth, max_succ_depth)`.  Returns `is_occluded` and the
three values when the loop is left. -/
def IsOccluded_loop (parent_depth_image succ_depth_image : List Nat) :
    Nat → Nat → List Int × Nat × Nat → Bool × List Int × Nat × Nat
  | 0, _, acc => (false, acc)
  | n + 1, jj, (new_pixel_indices, min_succ_depth, max_succ_depth) =>
    let sd := succ_depth_image.getD jj 0
    let pd := parent_depth_image.getD jj 0
    let acc1 : List Int × Nat × Nat :=
      if sd ≠ kBackground ∧ pd = kBackground then
        (new_pixel_indices ++ [(jj : Int)],
          if sd ≠ kBackground ∧ sd < min_succ_depth then sd else min_succ_depth,
          if sd ≠ kBackground ∧ sd > max_succ_depth then sd else max_succ_depth)
      else
        (new_pixel_indices, min_succ_depth, max_succ_depth)
    if sd ≠ kBackground ∧ pd ≠ kBackground ∧ sd < pd then
      (true, acc1)
    else
      IsOccluded_loop parent_depth_image succ_depth_image n (jj + 1) acc1

/-- The method `EnvObjectRecognition::IsOccluded`: `none` when one of the two `assert`s on the
image sizes fails, otherwise the returned flag with `new_pixel_indices`, `min_succ_depth` and
`max_succ_depth`. -/
def IsOccluded (env : Env) (parent_depth_image succ_depth_image : List Nat) :
    Option (Bool × List Int × Nat × Nat) :=
  let num_pixels : Int := env.env_params_.img_width * env.env_params_.img_height
  if (parent_depth_image.length : Int) ≠ num_pixels then
    none
  else if (succ_depth_image.length : Int) ≠ num_pixels then
    none
  else
    let r := IsOccluded_loop parent_depth_image succ_depth_image num_pixels.toNat 0
      ([], kBackground, 0)
    if r.1 then some (true, [], kBackground, 0) else some r

/-! ## Edge cost (`search_env.cpp`, lines 1205-1353 and 1408-1433) -/

/-- The constant `kSensorResolution`. -/
def kSensorResolution : ℚ := 0.01 / 2

/-- The conversion `static_cast<int>` of a `double` (values within the range of `int`). -/
def static_cast_int (x : ℚ) : Int := trunc x

/-- The method `EnvObjectRecognition::GetTargetCost`. -/
def GetTargetCost (env : Env) (partial_rendered_cloud : List PointT) : Int :=
  let nn_score : ℚ := partial_rendered_cloud.foldl
    (fun nn_score point =>
      let num_neighbors_found := env.knn_radiusSearch point kSensorResolution
      if num_neighbors_found = 0 then nn_score + 1.0 else nn_score + 0.0) 0
  static_cast_int nn_score

/-- The method `EnvObjectRecognition::GetDepthImage`: the float depth buffer and the
`unsigned short` depth image of the rendered scene; `none` when the `assert` on the sizes of
`object_ids` and `object_poses` fails. -/
def GetDepthImage (env : Env) (s : State) : Option (List ℚ × List Nat) :=
  if s.object_ids.length ≠ s.object_poses.length then
    none
  else
    some (env.doSim s, env.get_depth_image_uint (env.doSim s))

/-- The two nested loops of `GetTrueCost` that fill `new_pixel_buffer` (lines 1245-1257 and
1301-1316): the pixel `i` keeps the rendered depth `succ_depth_buffer[i_in]` when it is covered
in `depth_image` and background in `source_depth_image`, and is set to the maximum range 1.0
otherwise; `i_in` is the index of the pixel in the vertically flipped buffer. -/
def newPixelBuffer (env : Env) (depth_image source_depth_image : List Nat)
    (succ_depth_buffer : List ℚ) : List ℚ :=
  let w := env.env_params_.img_width.toNat
  let h := env.env_params_.img_height.toNat
  (List.range h).foldl
    (fun buf y =>
      (List.range w).foldl
        (fun buf x =>
          let i := y * w + x
          let i_in := (h - 1 - y) * w + x
          if depth_image.getD i 0 ≠ kBackground ∧ source_depth_image.getD i 0 = kBackground then
            buf.set i_in (succ_depth_buffer.getD i_in 0)
          else
            buf.set i_in 1.0)
        buf)
    (List.replicate (w * h) 0)

/-- The method `EnvObjectRecognition::GetICPAdjustedPose`, as far as `GetTrueCost` uses it: the
pose written to `pose_out`. -/
def GetICPAdjustedPose (env : Env) (cloud_in : List PointT) (pose_in : Pose) : Pose :=
  env.icp cloud_in pose_in

/-- The first part of `GetTrueCost` (lines 1215-1270): the rendered depth image of the source
state and `*adjusted_child_state` after the ICP adjustment of the pose of the last object;
`none` when an `assert` fails. -/
def GetTrueCost_adjust (env : Env) (source_state child_state : State) :
    Option (List Nat × State) :=
  if child_state.object_ids.length = 0 then
    none
  else
    match GetDepthImage env source_state with
    | none => none
    | some (_, source_depth_image) =>
      let child_pose := child_state.object_poses.getLastD default
      let last_object_id := child_state.object_ids.getLastD 0
      let s_new_obj : State := ⟨[last_object_id], [], [child_pose]⟩
      match GetDepthImage env s_new_obj with
      | none => none
      | some (succ_depth_buffer, new_obj_depth_image) =>
        let new_pixel_buffer :=
          newPixelBuffer env new_obj_depth_image source_depth_image succ_depth_buffer
        let cloud_in := env.getPointCloudFromBuffer new_pixel_buffer
        let pose_out := GetICPAdjustedPose env cloud_in child_pose
        let last_idx := child_state.object_poses.length - 1
        some (source_depth_image,
          { child_state with object_poses := child_state.object_poses.set last_idx pose_out })

/-- The method `EnvObjectRecognition::GetTrueCost`: the returned cost, `*adjusted_child_state`
and `*child_properties`; `none` when an `assert` fails.  (The ids `parent_id` and `child_id`
are only used for debug output.) -/
def GetTrueCost (env : Env) (source_state child_state : State) (_parent_id _child_id : Int) :
    Option (Int × State × StateProperties) :=
  match GetTrueCost_adjust env source_state child_state with
  | none => none
  | some (source_depth_image, adjusted_child_state) =>
    let child_properties0 : StateProperties := ⟨0, 20000⟩
    let last_object_id := child_state.object_ids.getLastD 0
    if !IsValidPose env source_state last_object_id
        (adjusted_child_state.object_poses.getLastD default) then
      some (-1, adjusted_child_state, child_properties0)
    else
      match GetDepthImage env adjusted_child_state with
      | none => none
      | some (succ_depth_buffer, depth_image) =>
        match IsOccluded env source_depth_image depth_image with
        | none => none
        | some (is_occluded, _, succ_min_depth, succ_max_depth) =>
          if is_occluded then
            some (-1, adjusted_child_state, child_properties0)
          else
            let child_properties : StateProperties := ⟨succ_min_depth, succ_max_depth⟩
            let new_pixel_buffer :=
              newPixelBuffer env depth_image source_depth_image succ_depth_buffer
            let cloud_out := env.getPointCloudFromBuffer new_pixel_buffer
            let target_cost := GetTargetCost env cloud_out
            let source_cost : Int := 0
            let total_cost := source_cost + target_cost
            some (total_cost, adjusted_child_state, child_properties)

/-! ## Candidate generation of `GetSuccs` (`search_env.cpp`, lines 820-860) -/

/-- A loop `for (double x = x0; x <= hi; x += step) body`, run with `fuel` as a bound on the
number of iterations: `none` when the bound is reached before the loop condition fails. -/
def forLE {σ : Type} (hi step : ℚ) (body : ℚ → σ → Option σ) : Nat → ℚ → σ → Option σ
  | 0, x, st => if x ≤ hi then none else some st
  | fuel + 1, x, st =>
    if x ≤ hi then
      match body x st with
      | none => none
      | some st1 => forLE hi step body fuel (x + step) st1
    else
      some st

/-- A loop `for (double x = x0; x < hi; x += step) body` whose body ends with `continue` or
with `break`: `body` returns the new state and whether it left through `break`. -/
def forLTBreak {σ : Type} (hi step : ℚ) (body : ℚ → σ → σ × Bool) : Nat → ℚ → σ → Option σ
  | 0, x, st => if x < hi then none else some st
  | fuel + 1, x, st =>
    if x < hi then
      let r := body x st
      if r.2 then some r.1 else forLTBreak hi step body fuel (x + step) r.1
    else
      some st

/-- The variables the candidate loops of `GetSuccs` update: the registry and the two vectors
`candidate_succ_ids` and `candidate_succs`.  (The loop also sets `HeuristicMap[succ_id] = 0`;
that map is read by none of the embedded functions.) -/
structure Candidates where
  StateMap : StateMapT
  candidate_succ_ids : List Int
  candidate_succs : List State

/-- The body of the innermost loop of `GetSuccs` (lines 836-856), for model `ii` at the grid
sample `(x, y, theta)`. -/
def GetSuccs_body (ord : StateMapT → StateMapT) (env : Env) (source_state : State) (ii : Int)
    (x y theta : ℚ) (c : Candidates) : Candidates × Bool :=
  let p : Pose := ⟨x, y, theta⟩
  if !IsValidPose env source_state ii p then
    (c, false)
  else
    let s : State :=
      { source_state with
        object_ids := source_state.object_ids ++ [ii]
        object_poses := source_state.object_poses ++ [p] }
    let r := StateToStateID ord env c.StateMap s
    let succ_id := r.1
    (⟨r.2, c.candidate_succ_ids ++ [succ_id], c.candidate_succs ++ [s]⟩,
      (env.model ii).symmetric)

/-- The three grid loops of `GetSuccs` (lines 831-859) for model `ii`. -/
def GetSuccs_grid (fuel : Nat) (ord : StateMapT → StateMapT) (env : Env) (source_state : State)
    (ii : Int) (c : Candidates) : Option Candidates :=
  forLE env.env_params_.x_max env.env_params_.res
    (fun x c1 =>
      forLE env.env_params_.y_max env.env_params_.res
        (fun y c2 =>
          forLTBreak (2 * M_PI) env.env_params_.theta_res
            (fun theta c3 => GetSuccs_body ord env source_state ii x y theta c3) fuel 0 c2)
        fuel env.env_params_.y_min c1)
    fuel env.env_params_.x_min c

/-- The loop over the models of `GetSuccs` (lines 820-860), over the model ids `iis`. -/
def GetSuccs_models (fuel : Nat) (ord : StateMapT → StateMapT) (env : Env)
    (source_state : State) : List Int → Candidates → Option Candidates
  | [], c => some c
  | ii :: rest, c =>
    if ii ∈ source_state.object_ids then
      GetSuccs_models fuel ord env source_state rest c
    else
      match GetSuccs_grid fuel ord env source_state ii c with
      | none => none
      | some c1 => GetSuccs_models fuel ord env source_state rest c1

/-- Lines 820-860 of `GetSuccs`: the candidates built for `source_state`, starting from the
registry `m`; every loop over a `double` runs with the iteration bound `fuel`. -/
def GetSuccs_candidates (fuel : Nat) (ord : StateMapT → StateMapT) (env : Env) (m : StateMapT)
    (source_state : State) : Option Candidates :=
  GetSuccs_models fuel ord env source_state
    ((List.range env.env_params_.num_models.toNat).map fun ii => (ii : Int)) ⟨m, [], []⟩

/-- The environment `demoEnv` with a search region of a single grid sample and two yaw
samples. -/
def tinyEnv : Env :=
  { demoEnv with
    env_params_ :=
      { demoEnv.env_params_ with
        x_min := 0, x_max := 0.1, y_min := 0, y_max := 0.1, theta_res := M_PI } }

/-! ## Wire format (`search_env.h`, lines 45 and 116-136; `search_env.cpp`, lines 431-779) -/

/-- The constant `NUM_MODELS`. -/
def NUM_MODELS : Nat := 4

/-- The struct `SendMsg`; each array is the list of its elements. -/
structure SendMsg where
  source_ids : List Int
  source_disc : List Int
  source_pose : List ℚ
  cand_ids : List Int
  cand_disc : List Int
  cand_pose : List ℚ
  source_id : Int
  cand_id : Int
  valid : Int
deriving DecidableEq

/-- The struct `RecvMsg`; each array is the list of its elements. -/
structure RecvMsg where
  child_ids : List Int
  child_disc : List Int
  child_pose : List ℚ
  last_min_depth : Nat
  last_max_depth : Nat
  cost : Int
  valid : Int
deriving DecidableEq

/-- The pair of loops `i = 0; for (e : vals) arr[i++] = e; while (i < cap) arr[i++] = pad;`
on an array of `cap` elements: the values, then the padding.  The source does not compare `i`
with `cap` in the first loop; a write beyond the end of the array is undefined behaviour
there and is dropped here. -/
def fillArray {α : Type} (cap : Nat) (vals : List α) (pad : α) : List α :=
  (vals ++ List.replicate (cap - vals.length) pad).take cap

/-- The values `x, y, theta` of each discrete pose in turn, as the pack loops write them. -/
def flattenDisc : List DiscPose → List Int
  | [] => []
  | d :: rest => d.x :: d.y :: d.theta :: flattenDisc rest

/-- The values `x, y, theta` of each pose in turn, as the pack loops write them. -/
def flattenPose : List Pose → List ℚ
  | [] => []
  | p :: rest => p.x :: p.y :: p.theta :: flattenPose rest

/-- The method `EnvObjectRecognition::SendbufPopulate`: the message it fills for the source
state `s`, the candidate `p` and their ids. -/
def SendbufPopulate (s p : State) (sid pid : Int) : SendMsg where
  source_ids := fillArray NUM_MODELS s.object_ids (-1)
  source_disc := fillArray (3 * NUM_MODELS) (flattenDisc s.disc_object_poses) (-1)
  source_pose := fillArray (3 * NUM_MODELS) (flattenPose s.object_poses) (-1.0)
  cand_ids := fillArray NUM_MODELS p.object_ids (-1)
  cand_disc := fillArray (3 * NUM_MODELS) (flattenDisc p.disc_object_poses) (-1)
  cand_pose := fillArray (3 * NUM_MODELS) (flattenPose p.object_poses) (-1.0)
  source_id := sid
  cand_id := pid
  valid := 1

/-- The method `EnvObjectRecognition::RecvbufPopulate`: the message it fills. -/
def RecvbufPopulate (s : State) (child_properties : StateProperties) (cost : Int) : RecvMsg where
  child_ids := fillArray NUM_MODELS s.object_ids (-1)
  child_disc := fillArray (3 * NUM_MODELS) (flattenDisc s.disc_object_poses) (-1)
  child_pose := fillArray (3 * NUM_MODELS) (flattenPose s.object_poses) (-1.0)
  last_min_depth := child_properties.last_min_depth
  last_max_depth := child_properties.last_max_depth
  cost := cost
  valid := 1

/-- The unpack loop over an id array: `for (j < NUM_MODELS) if (arr[j] != -1) push_back`. -/
def unpackIds (arr : List Int) : List Int :=
  (List.range NUM_MODELS).filterMap fun j =>
    if arr.getD j 0 ≠ -1 then some (arr.getD j 0) else none

/-- The unpack loop over a discrete-pose array: slot `k` starts at `j = 3 * k` and is read
when `arr[j] != -1`. -/
def unpackDisc (arr : List Int) : List DiscPose :=
  (List.range NUM_MODELS).filterMap fun k =>
    let j := k * 3
    if arr.getD j 0 ≠ -1 then
      some ⟨arr.getD j 0, arr.getD (j + 1) 0, arr.getD (j + 2) 0⟩
    else
      none

/-- The unpack loop over a pose array: slot `k` starts at `j = 3 * k` and is read when
`arr[j] != -1.0`. -/
def unpackPose (arr : List ℚ) : List Pose :=
  (List.range NUM_MODELS).filterMap fun k =>
    let j := k * 3
    if arr.getD j 0 ≠ -1.0 then
      some ⟨arr.getD j 0, arr.getD (j + 1) 0, arr.getD (j + 2) 0⟩
    else
      none

/-- A `SendMsg` of the scatter buffer that only had `valid = -1` written to it (the other
fields are uninitialised in the source and read as zero here). -/
def paddingSendMsg : SendMsg :=
  ⟨List.replicate NUM_MODELS 0, List.replicate (3 * NUM_MODELS) 0,
    List.replicate (3 * NUM_MODELS) 0, List.replicate NUM_MODELS 0,
    List.replicate (3 * NUM_MODELS) 0, List.replicate (3 * NUM_MODELS) 0, 0, 0, -1⟩

/-- A `RecvMsg` of a result buffer that only had `valid = -1` written to it. -/
def paddingRecvMsg : RecvMsg :=
  ⟨List.replicate NUM_MODELS 0, List.replicate (3 * NUM_MODELS) 0,
    List.replicate (3 * NUM_MODELS) 0, 0, 0, 0, -1⟩

/-- What `GetRecvdState` leaves for one message: the two states and the two ids of a message
with `valid == 1`, default-constructed states (and ids read as zero) otherwise. -/
def GetRecvdState_one (msg : SendMsg) : State × State × Int × Int :=
  if msg.valid = 1 then
    (⟨unpackIds msg.source_ids, unpackDisc msg.source_disc, unpackPose msg.source_pose⟩,
      ⟨unpackIds msg.cand_ids, unpackDisc msg.cand_disc, unpackPose msg.cand_pose⟩,
      msg.source_id, msg.cand_id)
  else
    (State.empty, State.empty, 0, 0)

/-- The method `EnvObjectRecognition::GetRecvdState` on the `val` messages `dummy`: the
returned `count` and, for every position `i < val`, the entries `work_source_state[i]`,
`work_cand_succs[i]`, `work_source_id[i]` and `work_cand_id[i]`. -/
def GetRecvdState (dummy : List SendMsg) (val : Nat) : Nat × List (State × State × Int × Int) :=
  ((List.range val).countP fun i => (dummy.getD i paddingSendMsg).valid = 1,
    (List.range val).map fun i => GetRecvdState_one (dummy.getD i paddingSendMsg))

/-- What `GetRecvdResult` leaves for one message: the state, the properties and the cost of
a message with `valid == 1`, and a default-constructed state (properties and cost read as
zero) otherwise. -/
def GetRecvdResult_one (msg : RecvMsg) : State × StateProperties × Int :=
  if msg.valid = 1 then
    (⟨unpackIds msg.child_ids, unpackDisc msg.child_disc, unpackPose msg.child_pose⟩,
      ⟨msg.last_min_depth, msg.last_max_depth⟩, msg.cost)
  else
    (State.empty, ⟨0, 0⟩, 0)

/-- The method `EnvObjectRecognition::GetRecvdResult` on the first `tot` messages of `dummy`:
for every `i < tot` the entries written to the three result arrays. -/
def GetRecvdResult (dummy : List RecvMsg) (tot : Nat) : List (State × StateProperties × Int) :=
  (List.range tot).map fun i => GetRecvdResult_one (dummy.getD i paddingRecvMsg)

/-! ## Distributed cost evaluation and `GetSuccs` (`search_env.cpp`, lines 781-1035) -/

/-- The conversion of an `int` to `size_t` (64 bits). -/
def to_size_t (z : Int) : Nat := (z % 2 ^ 64).toNat

/-- The conversion of a `size_t` value to `int` (32 bits, two's complement). -/
def to_int (n : Nat) : Int :=
  if n % 2 ^ 32 < 2 ^ 31 then ((n % 2 ^ 32 : Nat) : Int) else ((n % 2 ^ 32 : Nat) : Int) - 2 ^ 32

/-- The value `next_multiple` of `GetSuccs` (line 869) for `n = candidate_succ_ids.size()`:
`n + num_proc - (n % num_proc)`, computed in `size_t` and converted to `int`. -/
def next_multiple (n : Nat) (num_proc : Int) : Int :=
  to_int (((n + to_size_t num_proc) % 2 ^ 64 + 2 ^ 64 - n % to_size_t num_proc) % 2 ^ 64)

/-- All the values of a list of optional values, or `none` when one of them is missing. -/
def allSome {α : Type} : List (Option α) → Option (List α)
  | [] => some []
  | none :: _ => none
  | some a :: rest => (allSome rest).map (a :: ·)

/-- The work of one process of the pool on its `val` scattered messages (`GetSuccs`, lines
916-955, and the worker loop of `experiments.cpp`, lines 450-486): `GetRecvdState`, then
`GetTrueCost` on the first `count` entries, then a result buffer whose entries all have
`valid = -1` except the first `count`, which `RecvbufPopulate` fills.  `none` when an
assertion of `GetTrueCost` fails. -/
def workerCosts (env : Env) (dummy : List SendMsg) (val : Nat) : Option (List RecvMsg) :=
  let r := GetRecvdState dummy val
  let count := r.1
  match allSome ((List.range count).map fun ii =>
      let w := r.2.getD ii (State.empty, State.empty, 0, 0)
      GetTrueCost env w.1 w.2.1 w.2.2.1 w.2.2.2) with
  | none => none
  | some results =>
    some ((List.range val).map fun i =>
      match results[i]? with
      | some (cost, adjusted_child_state, child_properties) =>
        RecvbufPopulate adjusted_child_state child_properties cost
      | none => paddingRecvMsg)

/-- The buffer `sendbuf` of `GetSuccs` (lines 870-882) for `next_multiple = nm`: the message
of every candidate, filled by `SendbufPopulate`, then the entries that only had `valid = -1`
written to them. -/
def GetSuccs_sendbuf (source_state : State) (source_state_id : Int)
    (candidate_succ_ids : List Int) (candidate_succs : List State) (nm : Int) : List SendMsg :=
  let n := candidate_succ_ids.length
  ((List.range n).map fun ii =>
    SendbufPopulate source_state (candidate_succs.getD ii State.empty) source_state_id
      (candidate_succ_ids.getD ii 0)) ++
  List.replicate (nm.toNat - n) paddingSendMsg

/-- The block that `MPI_Scatter` with the count `val` delivers to the process of rank `r`:
the `val` elements of the root buffer from position `r * val` on. -/
def scatterBlock {α : Type} (buf : List α) (val r : Nat) : List α :=
  (buf.drop (r * val)).take val

/-- Lines 869-983 of `GetSuccs`: the candidates are packed into `next_multiple` messages, the
messages are scattered in blocks of `val` to the `num_proc` processes (process `r` receives
the block that starts at `r * val`), every process evaluates its block, the result buffers are
gathered in rank order, and `GetRecvdResult` unpacks the first `N` results.  Returns
`(child_result[i], child_properties_result[i], cost_result[i])` for every candidate; `none`
when an assertion fails (`next_multiple % num_proc == 0` in `GetSuccs`, `val > 0` in
`ExpectedCountScatter`, or one inside `GetTrueCost`). -/
def GetSuccs_distribute (env : Env) (source_state : State) (source_state_id : Int)
    (candidate_succ_ids : List Int) (candidate_succs : List State) :
    Option (List (State × StateProperties × Int)) :=
  let n := candidate_succ_ids.length
  let nm := next_multiple n env.num_proc
  let sendbuf : List SendMsg :=
    GetSuccs_sendbuf source_state source_state_id candidate_succ_ids candidate_succs nm
  let val := Int.tdiv nm env.num_proc
  if Int.tmod nm env.num_proc ≠ 0 then
    none
  else if ¬ val > 0 then
    none
  else
    match allSome ((List.range env.num_proc.toNat).map fun r =>
        workerCosts env (scatterBlock sendbuf val.toNat r) val.toNat) with
    | none => none
    | some recvbufs => some (GetRecvdResult recvbufs.flatten n)

/-- The loop of `GetSuccs` that keeps the valid successors (lines 1016-1023), on
`candidate_succ_ids` and `candidate_costs`: the lists `*succ_ids` and `*costs`. -/
def GetSuccs_filter : List Int → List Int → List Int × List Int
  | id :: ids, c :: cs =>
    if c = -1 then
      GetSuccs_filter ids cs
    else
      ((id :: (GetSuccs_filter ids cs).1), (c :: (GetSuccs_filter ids cs).2))
  | _, _ => ([], [])

/-- What an expansion of `GetSuccs` computes: the registry after the merge loop, the candidate
ids, `candidate_costs`, and the two lists handed to the caller. -/
structure Expansion where
  StateMap : StateMapT
  candidate_succ_ids : List Int
  candidate_costs : List Int
  succ_ids : List Int
  costs : List Int

/-- Lines 820-1023 of `GetSuccs`: candidate generation, distributed cost evaluation, the merge
loop and the loop that keeps the valid successors. -/
def GetSuccs_expand (fuel : Nat) (ord : StateMapT → StateMapT) (env : Env) (m : StateMapT)
    (source_state_id : Int) (source_state : State) : Option Expansion :=
  match GetSuccs_candidates fuel ord env m source_state with
  | none => none
  | some c =>
    match GetSuccs_distribute env source_state source_state_id c.candidate_succ_ids
        c.candidate_succs with
    | none => none
    | some results =>
      let merged := GetSuccs_merge ord env c.StateMap
        (List.zipWith (fun id r => (id, r.1, r.2.2)) c.candidate_succ_ids results)
      let out := GetSuccs_filter c.candidate_succ_ids merged.2
      some ⟨merged.1, c.candidate_succ_ids, merged.2, out.1, out.2⟩

/-- The method `EnvObjectRecognition::IsGoalState`. -/
def IsGoalState (env : Env) (state : State) : Bool :=
  if (state.object_ids.length : Int) = env.env_params_.num_objects then true else false

/-- The members of `EnvObjectRecognition` that `GetSuccs` updates: the registry and the two
caches, each cache an `unordered_map<int, vector<int>>` given as the list of its entries
(the source never iterates over a cache). -/
structure SearchState where
  StateMap : StateMapT
  succ_cache : List (Int × List Int)
  cost_cache : List (Int × List Int)

/-- The call `cache.find(k)`; `none` stands for `cache.end()`. -/
def cache_find (cache : List (Int × List Int)) (k : Int) : Option (List Int) :=
  (cache.find? fun e => e.1 == k).map Prod.snd

/-- The assignment `cache[k] = v`. -/
def cache_set (cache : List (Int × List Int)) (k : Int) (v : List Int) :
    List (Int × List Int) :=
  (k, v) :: cache.filter fun e => e.1 != k

/-- The method `EnvObjectRecognition::GetSuccs(int, vector<int>*, vector<int>*)`: the members
after the call with `*succ_ids` and `*costs`; `none` when the call does not return (a loop
runs out of `fuel`, or an assertion fails).  The debug output and the writes to
`HeuristicMap`, `minz_map_` and `maxz_map_` are left out. -/
def GetSuccs (fuel : Nat) (ord : StateMapT → StateMapT) (env : Env) (st : SearchState)
    (source_state_id : Int) : Option (SearchState × List Int × List Int) :=
  if source_state_id = env.env_params_.goal_state_id then
    some (st, [], [])
  else
    match cache_find st.succ_cache source_state_id with
    | some cached => some (st, cached, cached)
    | none =>
      let source_state := (StateIDToState st.StateMap source_state_id).1
      if IsGoalState env source_state then
        let r := StateToStateID ord env st.StateMap goal_state_
        some ({ st with StateMap := r.2 }, [r.1], [0])
      else
        match GetSuccs_expand fuel ord env st.StateMap source_state_id source_state with
        | none => none
        | some e =>
          some (⟨e.StateMap, cache_set st.succ_cache source_state_id e.succ_ids,
              cache_set st.cost_cache source_state_id e.costs⟩, e.succ_ids, e.costs)

/-! ## Ordered state equality (`search_env.cpp`, lines 357-383) -/

/-- The constant `kICPCostMultiplier`. -/
def kICPCostMultiplier : Int := 1000000

/-- The loop of `GetICPHeuristic` over the remaining indices `ii` of the sorted tables, with
the current values of `heuristic` and `num_objects_assigned`: the value of `heuristic` when
the loop is left. -/
def GetICPHeuristic_loop (env : Env) (s : State) : List Nat → ℚ → Int → ℚ
  | [], heuristic, _ => heuristic
  | ii :: rest, heuristic, num_objects_assigned =>
    let object_id := env.sorted_greedy_icp_ids_.getD ii 0
    if object_id ∈ s.object_ids then
      GetICPHeuristic_loop env s rest heuristic num_objects_assigned
    else
      let heuristic1 := heuristic + env.sorted_greedy_icp_scores_.getD ii 0
      let num_objects_assigned1 := num_objects_assigned + 1
      if num_objects_assigned1 = env.env_params_.num_objects then
        heuristic1
      else
        GetICPHeuristic_loop env s rest heuristic1 num_objects_assigned1

/-- The method `EnvObjectRecognition::GetICPHeuristic`.  Its `assert(num_objects_assigned <=
num_objects)` cannot fail, since a size is subtracted. -/
def GetICPHeuristic (env : Env) (s : State) : Int :=
  let num_objects_assigned : Int := env.env_params_.num_objects - (s.object_ids.length : Int)
  static_cast_int ((kICPCostMultiplier : ℚ) *
    GetICPHeuristic_loop env s (List.range env.env_params_.num_models.toNat) 0
      num_objects_assigned)

/-- The method `EnvObjectRecognition::GetGoalHeuristic(int q_id, int state_id)`, on the
registry `m`. -/
def GetGoalHeuristic (env : Env) (m : StateMapT) (q_id state_id : Int) : Int :=
  if state_id = env.env_params_.goal_state_id then
    0
  else
    let s := (StateIDToState m state_id).1
    let num_objects_left : Int := env.env_params_.num_objects - (s.object_ids.length : Int)
    let depth_first_heur := num_objects_left
    if q_id = 0 then 0
    else if q_id = 1 then depth_first_heur
    else if q_id = 2 then GetICPHeuristic env s
    else 0

/-- The greedy-alignment heuristic in the words of the specification: the residuals of the
models that are not assigned in `s`, the `K = num_objects - |s|` smallest of them summed,
scaled by 1000000 and truncated to an integer. -/
def spec_ICPHeuristic (env : Env) (s : State) : Int :=
  let unassigned : List ℚ :=
    ((env.sorted_greedy_icp_ids_.zip env.sorted_greedy_icp_scores_).filter
      fun e => decide (e.1 ∉ s.object_ids)).map Prod.snd
  let k : Nat := (env.env_params_.num_objects - (s.object_ids.length : Int)).toNat
  trunc (1000000 * ((unassigned.insertionSort (· ≤ ·)).take k).sum)

/-- A path of successor edges that starts at `s`: each edge is the state it leads to with its
cost, and each state has one placement more than the state before it. -/
def IsSuccessorPath (s : State) : List (State × Int) → Prop
  | [] => True
  | (child, _) :: rest =>
    child.object_ids.length = s.object_ids.length + 1 ∧ IsSuccessorPath child rest

/-- The last state of a path that starts at `s`. -/
def pathEnd (s : State) : List (State × Int) → State
  | [] => s
  | (child, _) :: rest => pathEnd child rest

/-- The environment `demoEnv` with three models and three objects and the sorted residual
tables 0.1, 0.2, 0.3 of the models 0, 1, 2. -/
def icpEnv : Env :=
  { demoEnv with
    env_params_ := { demoEnv.env_params_ with num_objects := 3, num_models := 3 }
    obj_models_ := [demoModel0, demoModel1, demoModel1]
    sorted_greedy_icp_ids_ := [0, 1, 2]
    sorted_greedy_icp_scores_ := [0.1, 0.2, 0.3] }

/-- The state that places model 0 at x = 0.1 and model 1 at x = -0.3. -/
def twoState : State := ⟨[0, 1], [], [⟨0.1, 0, 0⟩, ⟨-0.3, 0, 0⟩]⟩

/-! ## Collective calls of one expansion step (`search_env.cpp`, lines 520-556, 709-729 and
869-968; `experiments.cpp`, lines 438-495) -/

/-- The per-process count `val` of `GetSuccs` (line 898) for `n` candidates. -/
def GetSuccs_val (env : Env) (n : Nat) : Int :=
  Int.tdiv (next_multiple n env.num_proc) env.num_proc

/-- The block of `sendbuf` that `DataScatter` delivers to the process of rank `r` in the
expansion of `source_state` with the given candidates (line 910). -/
def GetSuccs_block (env : Env) (source_state : State) (source_state_id : Int)
    (candidate_succ_ids : List Int) (candidate_succs : List State) (r : Nat) : List SendMsg :=
  scatterBlock
    (GetSuccs_sendbuf source_state source_state_id candidate_succ_ids candidate_succs
      (next_multiple candidate_succ_ids.length env.num_proc))
    (GetSuccs_val env candidate_succ_ids.length).toNat r

/-- Whether pixel `jj` is a new pixel of the child image: not background in the child image
and background in the parent image. -/
def isNewPixel (parent_depth_image succ_depth_image : List Nat) (jj : Nat) : Bool :=
  decide (succ_depth_image.getD jj 0 ≠ kBackground ∧ parent_depth_image.getD jj 0 = kBackground)

/-- The new pixels of a child image among the first `num_pixels` pixels, in ascending
order. -/
def spec_newPixels (parent_depth_image succ_depth_image : List Nat) (num_pixels : Nat) :
    List Nat :=
  (List.range' 0 num_pixels).filter (isNewPixel parent_depth_image succ_depth_image)

/-- Whether the radius search of the observed cloud around `point` with the radius
`kSensorResolution` finds no neighbour. -/
def isUnexplained (env : Env) (point : PointT) : Bool :=
  decide (env.knn_radiusSearch point kSensorResolution = 0)

/-- The first `k` yaw samples of the loop `for (theta = 0; ...; theta += theta_res)`. -/
def yawSamples (theta_res : ℚ) (k : Nat) : List ℚ :=
  (List.range' 0 k).map fun (i : Nat) => (i : ℚ) * theta_res

/-- The child state that `GetSuccs` builds from `source_state` for model `ii` at the pose
`(x, y, theta)` (lines 842-844). -/
def childState (source_state : State) (ii : Int) (x y theta : ℚ) : State :=
  { source_state with
    object_ids := source_state.object_ids ++ [ii]
    object_poses := source_state.object_poses ++ [⟨x, y, theta⟩] }

/-! ## Theorems -/

theorem fabs_eq_abs (x : ℚ) : fabs x = |x| := by
  unfold fabs
  split_ifs with h
  · exact (abs_of_neg h).symm
  · exact (abs_of_nonneg (not_lt.mp h)).symm

theorem fabs_sub_comm (a b : ℚ) : fabs (a - b) = fabs (b - a) := by
  rw [fabs_eq_abs, fabs_eq_abs, abs_sub_comm]

theorem Pose.Equals_comm (a b : Pose) (sym : Bool) : a.Equals b sym = b.Equals a sym := by
  unfold Pose.Equals
  rw [fabs_sub_comm a.x b.x, fabs_sub_comm a.y b.y,
    fabs_sub_comm (WrapAngle a.theta) (WrapAngle b.theta)]

theorem Pose.Equals_self (a : Pose) (sym : Bool) : a.Equals a sym = true := by
  unfold Pose.Equals
  simp only [sub_self]
  have h0 : fabs 0 = 0 := by simp [fabs]
  rw [h0]
  norm_num

theorem firstIndex_eq_none_iff (v : Int) (l : List Int) : firstIndex v l = none ↔ v ∉ l := by
  induction l with
  | nil => simp [firstIndex]
  | cons x xs ih =>
    unfold firstIndex
    by_cases hx : x = v
    · simp [hx]
    · simp [hx, ih, Ne.symm hx]

theorem firstIndex_some (v : Int) (l : List Int) (i : Nat) (h : firstIndex v l = some i) :
    l[i]? = some v := by
  induction l generalizing i with
  | nil => simp [firstIndex] at h
  | cons x xs ih =>
    unfold firstIndex at h
    by_cases hx : x = v
    · simp [hx] at h
      subst h
      simp [hx]
    · simp [hx] at h
      obtain ⟨j, hj, rfl⟩ := h
      simpa using ih j hj

theorem firstIndex_of_nodup (v : Int) (l : List Int) (hl : l.Nodup) (j : Nat)
    (h : l[j]? = some v) : firstIndex v l = some j := by
  induction l generalizing j with
  | nil => simp at h
  | cons x xs ih =>
    rw [List.nodup_cons] at hl
    unfold firstIndex
    cases j with
    | zero =>
      simp at h
      simp [h]
    | succ j =>
      simp at h
      have hmem : v ∈ xs := List.getElem?_mem h
      have hx : x ≠ v := by
        rintro rfl
        exact hl.1 hmem
      simp [hx, ih hl.2 j h]


theorem StatesEqual_iff (env : Env) (s1 s2 : State) :
    StatesEqual env s1 s2 = true ↔
      s1.object_ids.length = s2.object_ids.length ∧
      ∀ ii, ii < s1.object_ids.length →
        ∃ idx, firstIndex (s1.object_ids.getD ii 0) s2.object_ids = some idx ∧
          (s1.object_poses.getD ii default).Equals (s2.object_poses.getD idx default)
            (modelSymmetric env (s1.object_ids.getD ii 0)) = true := by
  unfold StatesEqual
  by_cases hlen : s1.object_ids.length = s2.object_ids.length
  · simp only [hlen, ne_eq, not_true_eq_false, if_false, List.all_eq_true, List.mem_range,
      true_and]
    constructor
    · intro h ii hii
      have := h ii hii
      cases hf : firstIndex (s1.object_ids.getD ii 0) s2.object_ids with
      | none =>
        rw [hf] at this
        exact absurd this (by simp)
      | some idx =>
        rw [hf] at this
        exact ⟨idx, rfl, this⟩
    · intro h ii hii
      obtain ⟨idx, hf, he⟩ := h ii hii
      rw [hf]
      exact he
  · simp [hlen]

theorem getD_ids (l : List Int) (ii : Nat) (h : ii < l.length) : l[ii]? = some (l.getD ii 0) := by
  rw [List.getD_eq_getElem?_getD, List.getElem?_eq_getElem h]
  rfl

theorem ids_perm_of_StatesEqual (env : Env) (s1 s2 : State) (h1 : s1.object_ids.Nodup)
    (h : StatesEqual env s1 s2 = true) : s1.object_ids.Perm s2.object_ids := by
  rw [StatesEqual_iff] at h
  obtain ⟨hlen, hall⟩ := h
  have hsub : s1.object_ids ⊆ s2.object_ids := by
    intro v hv
    obtain ⟨n, hn⟩ := List.getElem?_of_mem hv
    have hlt : n < s1.object_ids.length := by
      by_contra hc
      rw [List.getElem?_eq_none (not_lt.mp hc)] at hn
      cases hn
    obtain ⟨idx, hf, _⟩ := hall n hlt
    have hv2 : s1.object_ids.getD n 0 = v := by
      have := getD_ids _ n hlt
      rw [hn] at this
      exact (Option.some.inj this).symm
    rw [hv2] at hf
    exact List.getElem?_mem (firstIndex_some _ _ _ hf)
  exact (List.subperm_of_subset h1 hsub).perm_of_length_le (le_of_eq hlen.symm)

theorem StatesEqual_iff_of_nodup (env : Env) (s1 s2 : State) (h1 : s1.object_ids.Nodup)
    (h2 : s2.object_ids.Nodup) :
    StatesEqual env s1 s2 = true ↔
      (∀ v, v ∈ s1.object_ids ↔ v ∈ s2.object_ids) ∧
      ∀ ii jj id, s1.object_ids[ii]? = some id → s2.object_ids[jj]? = some id →
        (s1.object_poses.getD ii default).Equals (s2.object_poses.getD jj default)
          (modelSymmetric env id) = true := by
  constructor
  · intro h
    have hperm := ids_perm_of_StatesEqual env s1 s2 h1 h
    refine ⟨fun v => hperm.mem_iff, ?_⟩
    rw [StatesEqual_iff] at h
    intro ii jj id hi hj
    have hlt : ii < s1.object_ids.length := by
      by_contra hc
      rw [List.getElem?_eq_none (not_lt.mp hc)] at hi
      cases hi
    obtain ⟨idx, hf, he⟩ := h.2 ii hlt
    have hv : s1.object_ids.getD ii 0 = id := by
      have := getD_ids _ ii hlt
      rw [hi] at this
      exact (Option.some.inj this).symm
    rw [hv] at hf he
    have := firstIndex_of_nodup id _ h2 jj hj
    rw [hf] at this
    cases this
    exact he
  · rintro ⟨hmem, hpose⟩
    have hperm : s1.object_ids.Perm s2.object_ids := (List.perm_ext_iff_of_nodup h1 h2).mpr hmem
    rw [StatesEqual_iff]
    refine ⟨hperm.length_eq, ?_⟩
    intro ii hii
    have hi := getD_ids _ ii hii
    have hin : s1.object_ids.getD ii 0 ∈ s2.object_ids := (hmem _).mp (List.getElem?_mem hi)
    cases hf : firstIndex (s1.object_ids.getD ii 0) s2.object_ids with
    | none => exact absurd hin ((firstIndex_eq_none_iff _ _).mp hf)
    | some idx =>
      exact ⟨idx, rfl, hpose ii idx _ hi (firstIndex_some _ _ _ hf)⟩

theorem StatesEqual_symm_of_nodup (env : Env) (s1 s2 : State) (h1 : s1.object_ids.Nodup)
    (h2 : s2.object_ids.Nodup) : StatesEqual env s1 s2 = StatesEqual env s2 s1 := by
  rw [Bool.eq_iff_iff, StatesEqual_iff_of_nodup env s1 s2 h1 h2,
    StatesEqual_iff_of_nodup env s2 s1 h2 h1]
  constructor
  · rintro ⟨hm, hp⟩
    refine ⟨fun v => (hm v).symm, fun ii jj id hi hj => ?_⟩
    rw [Pose.Equals_comm]
    exact hp jj ii id hj hi
  · rintro ⟨hm, hp⟩
    refine ⟨fun v => (hm v).symm, fun ii jj id hi hj => ?_⟩
    rw [Pose.Equals_comm]
    exact hp jj ii id hj hi

theorem StatesEqual_refl_of_nodup (env : Env) (s : State) (h : s.object_ids.Nodup) :
    StatesEqual env s s = true := by
  rw [StatesEqual_iff_of_nodup env s s h h]
  refine ⟨fun v => Iff.rfl, fun ii jj id hi hj => ?_⟩
  have hij : ii = jj := by
    have a := firstIndex_of_nodup id _ h ii hi
    have b := firstIndex_of_nodup id _ h jj hj
    rw [a] at b
    exact Option.some.inj b
  subst hij
  exact Pose.Equals_self _ _

/-! ### The registry as a finite map -/

theorem find?_key_of_mem (m : StateMapT) (hk : m.keys.Nodup) (e : Int × State) (he : e ∈ m) :
    m.find? (fun x => x.1 == e.1) = some e := by
  induction m with
  | nil => simp at he
  | cons a as ih =>
    simp only [StateMapT.keys, List.map_cons, List.nodup_cons] at hk
    rcases List.mem_cons.mp he with h | h
    · subst h
      simp [List.find?]
    · have hne : a.1 ≠ e.1 := by
        intro hc
        exact hk.1 (hc ▸ List.mem_map_of_mem Prod.fst h)
      have : (a.1 == e.1) = false := by simpa using hne
      rw [List.find?_cons, this]
      exact ih hk.2 h

theorem StateMap_find_eq_some_iff (m : StateMapT) (hk : m.keys.Nodup) (k : Int) (s : State) :
    StateMap_find m k = some s ↔ (k, s) ∈ m := by
  unfold StateMap_find
  constructor
  · intro h
    rw [Option.map_eq_some'] at h
    obtain ⟨e, he, hs⟩ := h
    have hmem := List.mem_of_find?_eq_some he
    have hkey := List.find?_some he
    simp only [beq_iff_eq] at hkey
    have : e = (k, s) := Prod.ext hkey hs
    exact this ▸ hmem
  · intro h
    have := find?_key_of_mem m hk (k, s) h
    simp only at this
    rw [this]
    rfl

theorem StateMap_find_eq_none_iff (m : StateMapT) (k : Int) :
    StateMap_find m k = none ↔ k ∉ m.keys := by
  unfold StateMap_find StateMapT.keys
  simp only [Option.map_eq_none', List.find?_eq_none, beq_iff_eq, List.mem_map, not_exists,
    not_and]

theorem mem_StateMap_set (ord : StateMapT → StateMapT) (hord : ∀ l, (ord l).Perm l)
    (m : StateMapT) (k : Int) (s : State) (e : Int × State) :
    e ∈ StateMap_set ord m k s ↔ e = (k, s) ∨ (e ∈ m ∧ e.1 ≠ k) := by
  unfold StateMap_set
  split_ifs with h
  · simp only [List.any_eq_true, beq_iff_eq] at h
    obtain ⟨e0, he0, hk0⟩ := h
    simp only [List.mem_map]
    constructor
    · rintro ⟨a, ha, rfl⟩
      split_ifs with hak
      · exact Or.inl rfl
      · exact Or.inr ⟨ha, hak⟩
    · rintro (rfl | ⟨he, hne⟩)
      · exact ⟨e0, he0, by simp [hk0]⟩
      · exact ⟨e, he, by simp [hne]⟩
  · simp only [List.any_eq_true, beq_iff_eq, not_exists, not_and] at h
    rw [(hord _).mem_iff, List.mem_cons]
    constructor
    · rintro (rfl | he)
      · exact Or.inl rfl
      · exact Or.inr ⟨he, h e he⟩
    · rintro (rfl | ⟨he, _⟩)
      · exact Or.inl rfl
      · exact Or.inr he

theorem keys_StateMap_set (ord : StateMapT → StateMapT) (hord : ∀ l, (ord l).Perm l)
    (m : StateMapT) (hk : m.keys.Nodup) (k : Int) (s : State) :
    (StateMap_set ord m k s).keys.Nodup := by
  unfold StateMap_set
  split_ifs with h
  · have : StateMapT.keys (m.map fun e => if e.1 = k then (k, s) else e) = m.keys := by
      unfold StateMapT.keys
      rw [List.map_map]
      apply List.map_congr_left
      intro a _
      simp only [Function.comp]
      split_ifs with hak
      · exact hak.symm
      · rfl
    rw [this]
    exact hk
  · simp only [List.any_eq_true, beq_iff_eq, not_exists, not_and] at h
    unfold StateMapT.keys at hk ⊢
    have hp : ((ord ((k, s) :: m)).map Prod.fst).Perm (((k, s) :: m).map Prod.fst) :=
      (hord _).map _
    rw [hp.nodup_iff, List.map_cons, List.nodup_cons]
    refine ⟨?_, hk⟩
    intro hc
    obtain ⟨a, ha, hak⟩ := List.mem_map.mp hc
    exact h a ha hak

theorem length_StateMap_set_new (ord : StateMapT → StateMapT) (hord : ∀ l, (ord l).Perm l)
    (m : StateMapT) (k : Int) (s : State) (hnew : k ∉ m.keys) :
    (StateMap_set ord m k s).length = m.length + 1 := by
  unfold StateMap_set
  have : m.any (fun e => e.1 == k) = false := by
    rw [List.any_eq_false]
    intro e he
    simp only [beq_iff_eq]
    intro hc
    exact hnew (hc ▸ List.mem_map_of_mem Prod.fst he)
  rw [this]
  simp [(hord _).length_eq]

theorem length_StateMap_set_old (ord : StateMapT → StateMapT)
    (m : StateMapT) (k : Int) (s : State) (hold : k ∈ m.keys) :
    (StateMap_set ord m k s).length = m.length := by
  unfold StateMap_set
  have : m.any (fun e => e.1 == k) = true := by
    rw [List.any_eq_true]
    obtain ⟨e, he, hk⟩ := List.mem_map.mp hold
    exact ⟨e, he, by simp [hk]⟩
  rw [this]
  simp

/-! ### `StateToStateID` -/

theorem StateToStateID_hit (ord : StateMapT → StateMapT) (env : Env) (m : StateMapT)
    (s : State) (h : ∃ e ∈ m, StatesEqual env s e.2 = true) :
    ∃ e ∈ m, StatesEqual env s e.2 = true ∧ StateToStateID ord env m s = (e.1, m) := by
  unfold StateToStateID
  cases hf : m.find? (fun e => StatesEqual env s e.2) with
  | none =>
    rw [List.find?_eq_none] at hf
    obtain ⟨e, he, hs⟩ := h
    exact absurd hs (hf e he)
  | some e =>
    have hp : StatesEqual env s e.2 = true := by
      have := List.find?_some hf
      simpa using this
    exact ⟨e, List.mem_of_find?_eq_some hf, hp, rfl⟩

theorem StateToStateID_miss (ord : StateMapT → StateMapT) (env : Env) (m : StateMapT)
    (s : State) (h : ∀ e ∈ m, StatesEqual env s e.2 = false) :
    StateToStateID ord env m s = ((m.length : Int), StateMap_set ord m (m.length : Int) s) := by
  unfold StateToStateID
  have hf : m.find? (fun e => StatesEqual env s e.2) = none := by
    rw [List.find?_eq_none]
    intro e he
    simp [h e he]
  rw [hf]

theorem StateIDToState_of_mem (m : StateMapT) (hk : m.keys.Nodup) (k : Int) (s : State)
    (h : (k, s) ∈ m) : (StateIDToState m k).1 = s := by
  unfold StateIDToState
  rw [(StateMap_find_eq_some_iff m hk k s).mpr h]

/-! ### Canonicalisation -/

/-- C5.  `StateToStateID(s)` returns the id of an entry that is `StatesEqual` to `s` when the
registry has one, and leaves the registry as it was; otherwise it returns the number of
entries registered so far, after the call that id maps to `s`, and every other id maps to what
it mapped to before. -/
theorem StateToStateID_spec (ord : StateMapT → StateMapT) (hord : ∀ l, (ord l).Perm l)
    (env : Env) (m : StateMapT) (hk : m.keys.Nodup) (s : State) :
    ((∃ e ∈ m, StatesEqual env s e.2 = true) →
      (StateToStateID ord env m s).2 = m ∧
      ∃ t, StateMap_find m (StateToStateID ord env m s).1 = some t ∧
        StatesEqual env s t = true) ∧
    ((∀ e ∈ m, StatesEqual env s e.2 = false) →
      (StateToStateID ord env m s).1 = (m.length : Int) ∧
      StateMap_find (StateToStateID ord env m s).2 (m.length : Int) = some s ∧
      ∀ k : Int, k ≠ (m.length : Int) →
        StateMap_find (StateToStateID ord env m s).2 k = StateMap_find m k) := by
  constructor
  · intro h
    obtain ⟨e, he, hs, hr⟩ := StateToStateID_hit ord env m s h
    rw [hr]
    exact ⟨rfl, e.2, (StateMap_find_eq_some_iff m hk e.1 e.2).mpr he, hs⟩
  · intro h
    rw [StateToStateID_miss ord env m s h]
    have hk1 := keys_StateMap_set ord hord m hk (m.length : Int) s
    refine ⟨rfl, ?_, ?_⟩
    · exact (StateMap_find_eq_some_iff _ hk1 _ s).mpr
        ((mem_StateMap_set ord hord m _ s _).mpr (Or.inl rfl))
    · intro k hne
      simp only
      cases hf : StateMap_find m k with
      | none =>
        rw [StateMap_find_eq_none_iff] at hf ⊢
        intro hc
        obtain ⟨e, he, hek⟩ := List.mem_map.mp hc
        rcases (mem_StateMap_set ord hord m _ s e).mp he with h1 | ⟨h1, _⟩
        · rw [h1] at hek
          exact hne hek.symm
        · exact hf (List.mem_map.mpr ⟨e, h1, hek⟩)
      | some t =>
        rw [StateMap_find_eq_some_iff m hk] at hf
        rw [StateMap_find_eq_some_iff _ hk1]
        exact (mem_StateMap_set ord hord m _ s _).mpr (Or.inr ⟨hf, hne⟩)

/-- Witness for C5: the registry the constructor leaves, and a state with one placement. -/
theorem StateToStateID_spec_witness :
    ((∃ e ∈ initialStateMap, StatesEqual demoEnv (stateAt 0 0.1) e.2 = true) →
      (StateToStateID id demoEnv initialStateMap (stateAt 0 0.1)).2 = initialStateMap ∧
      ∃ t, StateMap_find initialStateMap
          (StateToStateID id demoEnv initialStateMap (stateAt 0 0.1)).1 = some t ∧
        StatesEqual demoEnv (stateAt 0 0.1) t = true) ∧
    ((∀ e ∈ initialStateMap, StatesEqual demoEnv (stateAt 0 0.1) e.2 = false) →
      (StateToStateID id demoEnv initialStateMap (stateAt 0 0.1)).1 =
        (initialStateMap.length : Int) ∧
      StateMap_find (StateToStateID id demoEnv initialStateMap (stateAt 0 0.1)).2
        (initialStateMap.length : Int) = some (stateAt 0 0.1) ∧
      ∀ k : Int, k ≠ (initialStateMap.length : Int) →
        StateMap_find (StateToStateID id demoEnv initialStateMap (stateAt 0 0.1)).2 k =
          StateMap_find initialStateMap k) :=
  StateToStateID_spec id (fun l => List.Perm.refl l) demoEnv initialStateMap (by decide)
    (stateAt 0 0.1)

/-- C6 (as amended).  `StateIDToState` called with an id that is absent from the registry
reports the lookup through `ROS_ERROR` and returns the empty state to its caller. -/
theorem StateIDToState_absent (m : StateMapT) (state_id : Int) (h : state_id ∉ m.keys) :
    StateIDToState m state_id = (State.empty, [kLookupErrorMsg]) := by
  unfold StateIDToState
  rw [(StateMap_find_eq_none_iff m state_id).mpr h]

/-- Witness for C6: id 7 in the registry the constructor leaves. -/
theorem StateIDToState_absent_witness :
    (7 : Int) ∉ initialStateMap.keys ∧
    StateIDToState initialStateMap 7 = (State.empty, [kLookupErrorMsg]) :=
  ⟨by decide, StateIDToState_absent initialStateMap 7 (by decide)⟩

/-- C6 (as stated) fails: for id 7, absent from the registry the constructor leaves, the
caller receives a state, and that state is the empty one. -/
theorem StateIDToState_absent_returns_empty :
    StateMap_find initialStateMap 7 = none ∧
    (StateIDToState initialStateMap 7).1 = State.empty := by
  decide

/-! ### Stability of ids -/

theorem SequentialKeys_fresh (m : StateMapT) (h : SequentialKeys m) :
    (m.length : Int) ∉ m.keys := by
  intro hc
  have := ((h.2 _).mp hc).2
  exact lt_irrefl _ this

theorem SequentialKeys_set_new (ord : StateMapT → StateMapT) (hord : ∀ l, (ord l).Perm l)
    (m : StateMapT) (h : SequentialKeys m) (s : State) :
    SequentialKeys (StateMap_set ord m (m.length : Int) s) := by
  have hfresh := SequentialKeys_fresh m h
  have hlen := length_StateMap_set_new ord hord m _ s hfresh
  refine ⟨keys_StateMap_set ord hord m h.1 _ s, ?_⟩
  intro k
  rw [hlen]
  unfold StateMapT.keys
  rw [List.mem_map]
  constructor
  · rintro ⟨e, he, rfl⟩
    rcases (mem_StateMap_set ord hord m _ s e).mp he with h1 | ⟨h1, _⟩
    · rw [h1]
      simp only
      constructor
      · exact Int.natCast_nonneg _
      · push_cast
        exact Int.lt_succ_self _
    · have := (h.2 e.1).mp (List.mem_map_of_mem Prod.fst h1)
      refine ⟨this.1, ?_⟩
      push_cast
      exact lt_trans this.2 (Int.lt_succ_self _)
  · rintro ⟨h0, h1⟩
    push_cast at h1
    by_cases hk : k = (m.length : Int)
    · exact ⟨(k, s), (mem_StateMap_set ord hord m _ s _).mpr (Or.inl (by rw [hk])), rfl⟩
    · have hlt : k < (m.length : Int) := lt_of_le_of_ne (Int.lt_add_one_iff.mp h1) hk
      obtain ⟨e, he, hek⟩ := List.mem_map.mp ((h.2 k).mpr ⟨h0, hlt⟩)
      exact ⟨e, (mem_StateMap_set ord hord m _ s e).mpr (Or.inr ⟨he, hek ▸ hk⟩), hek⟩

theorem registered_entry_kept (ord : StateMapT → StateMapT) (hord : ∀ l, (ord l).Perm l)
    (env : Env) (k : Int) (s : State) (hs : s.object_ids.Nodup) (m : StateMapT)
    (hseq : SequentialKeys m) (hmem : (k, s) ∈ m)
    (honly : ∀ e ∈ m, StatesEqual env s e.2 = true → e = (k, s))
    (t : State) (ht : t.object_ids.Nodup) :
    SequentialKeys (StateToStateID ord env m t).2 ∧ (k, s) ∈ (StateToStateID ord env m t).2 ∧
      ∀ e ∈ (StateToStateID ord env m t).2, StatesEqual env s e.2 = true → e = (k, s) := by
  by_cases h : ∃ e ∈ m, StatesEqual env t e.2 = true
  · obtain ⟨e, _, _, hr⟩ := StateToStateID_hit ord env m t h
    rw [hr]
    exact ⟨hseq, hmem, honly⟩
  · have h2 : ∀ e ∈ m, StatesEqual env t e.2 = false := by
      intro e he
      by_contra hc
      exact h ⟨e, he, by simpa using hc⟩
    rw [StateToStateID_miss ord env m t h2]
    simp only
    have hkne : k ≠ (m.length : Int) := by
      intro hc
      exact SequentialKeys_fresh m hseq (hc ▸ List.mem_map_of_mem Prod.fst hmem)
    refine ⟨SequentialKeys_set_new ord hord m hseq t, ?_, ?_⟩
    · exact (mem_StateMap_set ord hord m _ t _).mpr (Or.inr ⟨hmem, hkne⟩)
    · intro e he hse
      rcases (mem_StateMap_set ord hord m _ t e).mp he with h1 | ⟨h1, _⟩
      · rw [h1] at hse
        simp only at hse
        rw [StatesEqual_symm_of_nodup env s t hs ht, h2 (k, s) hmem] at hse
        cases hse
      · exact honly e h1 hse

theorem registered_entry_kept_all (ord : StateMapT → StateMapT) (hord : ∀ l, (ord l).Perm l)
    (env : Env) (k : Int) (s : State) (hs : s.object_ids.Nodup) (l : List State)
    (hl : ∀ t ∈ l, t.object_ids.Nodup) (m : StateMapT)
    (hseq : SequentialKeys m) (hmem : (k, s) ∈ m)
    (honly : ∀ e ∈ m, StatesEqual env s e.2 = true → e = (k, s)) :
    (k, s) ∈ registerAll ord env m l ∧
      ∀ e ∈ registerAll ord env m l, StatesEqual env s e.2 = true → e = (k, s) := by
  induction l generalizing m with
  | nil => exact ⟨hmem, honly⟩
  | cons t ts ih =>
    obtain ⟨a, b, c⟩ := registered_entry_kept ord hord env k s hs m hseq hmem honly t
      (hl t (List.mem_cons_self _ _))
    exact ih (fun u hu => hl u (List.mem_cons_of_mem _ hu)) _ a b c

/-- C7 (as amended).  Once `StateToStateID` has registered a state `s` with unique model ids
under a new id `k`, in a registry whose keys are `0 .. size-1`, every later
`StateToStateID(s)` returns `k` and leaves the registry as it is, whatever calls of
`StateToStateID` on states with unique model ids happen in between and whatever iteration
order the container uses. -/
theorem StateToStateID_stable (ord : StateMapT → StateMapT) (hord : ∀ l, (ord l).Perm l)
    (env : Env) (m : StateMapT) (hseq : SequentialKeys m) (s : State)
    (hs : s.object_ids.Nodup) (hfresh : ∀ e ∈ m, StatesEqual env s e.2 = false)
    (l : List State) (hl : ∀ t ∈ l, t.object_ids.Nodup) :
    StateToStateID ord env (registerAll ord env (StateToStateID ord env m s).2 l) s =
      ((StateToStateID ord env m s).1, registerAll ord env (StateToStateID ord env m s).2 l) := by
  rw [StateToStateID_miss ord env m s hfresh]
  simp only
  have hseq1 := SequentialKeys_set_new ord hord m hseq s
  have hmem1 : ((m.length : Int), s) ∈ StateMap_set ord m (m.length : Int) s :=
    (mem_StateMap_set ord hord m _ s _).mpr (Or.inl rfl)
  have honly1 : ∀ e ∈ StateMap_set ord m (m.length : Int) s,
      StatesEqual env s e.2 = true → e = ((m.length : Int), s) := by
    intro e he hse
    rcases (mem_StateMap_set ord hord m _ s e).mp he with h1 | ⟨h1, _⟩
    · exact h1
    · rw [hfresh e h1] at hse
      cases hse
  obtain ⟨hmem2, honly2⟩ := registered_entry_kept_all ord hord env _ s hs l hl _ hseq1 hmem1
    honly1
  obtain ⟨e, he, hse, hr⟩ := StateToStateID_hit ord env _ s
    ⟨_, hmem2, StatesEqual_refl_of_nodup env s hs⟩
  rw [hr, honly2 e he hse]

theorem SequentialKeys_initialStateMap : SequentialKeys initialStateMap := by
  refine ⟨by decide, ?_⟩
  intro k
  simp only [initialStateMap, StateMapT.keys, List.map_cons, List.map_nil, List.mem_cons,
    List.mem_singleton, List.length_cons, List.length_nil, List.not_mem_nil, or_false]
  constructor
  · rintro (h | h) <;> subst h <;> decide
  · rintro ⟨h0, h1⟩
    norm_num at h1
    omega

/-- Witness for C7: a state registered in the registry the constructor leaves, then two more
calls (one that registers, one that matches). -/
theorem StateToStateID_stable_witness :
    StateToStateID id demoEnv
        (registerAll id demoEnv (StateToStateID id demoEnv initialStateMap (stateAt 0 0.1)).2
          [stateAt 1 0.1, stateAt 0 0.11]) (stateAt 0 0.1) =
      ((StateToStateID id demoEnv initialStateMap (stateAt 0 0.1)).1,
        registerAll id demoEnv (StateToStateID id demoEnv initialStateMap (stateAt 0 0.1)).2
          [stateAt 1 0.1, stateAt 0 0.11]) :=
  StateToStateID_stable id (fun l => List.Perm.refl l) demoEnv initialStateMap
    SequentialKeys_initialStateMap (stateAt 0 0.1) (by decide) (by decide!)
    [stateAt 1 0.1, stateAt 0 0.11] (by decide)

/-- C7 (as stated) fails in three ways.
(a) `GetSuccs` in between: the candidate `s` at x = -0.3 is registered under id 2; the merge
loop stores its ICP-adjusted state (x = -0.25, cost 3) under id 2; the next
`StateToStateID(s)` finds no match and returns 3.
(b) A state that was only matched: `s` at x = 0.015 matches the entry at x = 0 and gets id 0;
a state at x = 0.03 is then registered under id 1; a container that iterates over the newest
entry first now matches `s` to id 1.
(c) A state listing a model twice is not `StatesEqual` to itself, so two consecutive calls
return 2 and then 3. -/
theorem StateToStateID_not_stable :
    ((StateToStateID id demoEnv initialStateMap (stateAt 0 (-0.3))).1 = 2 ∧
      GetSuccs_merge id demoEnv (StateToStateID id demoEnv initialStateMap (stateAt 0 (-0.3))).2
          [(2, stateAt 0 (-0.25), 3)] =
        ([(2, stateAt 0 (-0.25)), (0, goal_state_), (1, State.empty)], [3]) ∧
      (StateToStateID id demoEnv
        (GetSuccs_merge id demoEnv
          (StateToStateID id demoEnv initialStateMap (stateAt 0 (-0.3))).2
          [(2, stateAt 0 (-0.25), 3)]).1 (stateAt 0 (-0.3))).1 = 3) ∧
    ((StateToStateID id demoEnv [(0, stateAt 0 0)] (stateAt 0 0.015)).1 = 0 ∧
      (StateToStateID id demoEnv
        (registerAll id demoEnv (StateToStateID id demoEnv [(0, stateAt 0 0)]
          (stateAt 0 0.015)).2 [stateAt 0 0.03]) (stateAt 0 0.015)).1 = 1) ∧
    ((StateToStateID id demoEnv initialStateMap dupState).1 = 2 ∧
      (StateToStateID id demoEnv (StateToStateID id demoEnv initialStateMap dupState).2
        dupState).1 = 3) := by
  decide!

/-! ### State equality -/

theorem IsOccluded_loop_true_iff (parent succ : List Nat) (n jj : Nat)
    (acc : List Int × Nat × Nat) :
    (IsOccluded_loop parent succ n jj acc).1 = true ↔
      ∃ k, jj ≤ k ∧ k < jj + n ∧ succ.getD k 0 ≠ kBackground ∧
        parent.getD k 0 ≠ kBackground ∧ succ.getD k 0 < parent.getD k 0 := by
  induction n generalizing jj acc with
  | zero =>
    obtain ⟨a, b, c⟩ := acc
    simp only [IsOccluded_loop, Bool.false_eq_true, false_iff, not_exists]
    intro k hk
    omega
  | succ n ih =>
    obtain ⟨a, b, c⟩ := acc
    unfold IsOccluded_loop
    simp only
    by_cases hocc : succ.getD jj 0 ≠ kBackground ∧ parent.getD jj 0 ≠ kBackground ∧
        succ.getD jj 0 < parent.getD jj 0
    · rw [if_pos hocc]
      simp only [true_iff]
      exact ⟨jj, le_refl _, by omega, hocc.1, hocc.2.1, hocc.2.2⟩
    · rw [if_neg hocc, ih]
      constructor
      · rintro ⟨k, h1, h2, h3⟩
        exact ⟨k, by omega, by omega, h3⟩
      · rintro ⟨k, h1, h2, h3⟩
        have hne : k ≠ jj := by
          rintro rfl
          exact hocc h3
        exact ⟨k, by omega, by omega, h3⟩

theorem IsOccluded_eq_some (env : Env) (parent succ : List Nat)
    (hp : (parent.length : Int) = env.env_params_.img_width * env.env_params_.img_height)
    (hs : (succ.length : Int) = env.env_params_.img_width * env.env_params_.img_height) :
    ∃ r, IsOccluded env parent succ = some r ∧
      (r.1 = true ↔ ∃ jj, jj < parent.length ∧ succ.getD jj 0 ≠ kBackground ∧
        parent.getD jj 0 ≠ kBackground ∧ succ.getD jj 0 < parent.getD jj 0) := by
  have hn : (env.env_params_.img_width * env.env_params_.img_height).toNat = parent.length := by
    rw [← hp]
    exact Int.toNat_natCast _
  unfold IsOccluded
  simp only [hp, hs, ne_eq, not_true_eq_false, if_false, hn]
  have key := IsOccluded_loop_true_iff parent succ parent.length 0 ([], kBackground, 0)
  simp only [Nat.zero_le, zero_add, true_and] at key
  by_cases hr : (IsOccluded_loop parent succ parent.length 0 ([], kBackground, 0)).1 = true
  · rw [if_pos hr]
    exact ⟨_, rfl, by simpa using key.mp hr⟩
  · rw [if_neg hr]
    exact ⟨_, rfl, key⟩

/-- C10.  For parent and child depth images of the configured size, `IsOccluded` returns, and
it returns true exactly when some pixel is non-background (depth other than 20000) in both
images and has a strictly smaller depth in the child image; so it returns false whenever the
child depth is at least the parent depth at every pixel covered in both. -/
theorem IsOccluded_iff (env : Env) (parent succ : List Nat)
    (hp : (parent.length : Int) = env.env_params_.img_width * env.env_params_.img_height)
    (hs : (succ.length : Int) = env.env_params_.img_width * env.env_params_.img_height) :
    ∃ r, IsOccluded env parent succ = some r ∧
      (r.1 = true ↔ ∃ jj, jj < parent.length ∧ succ.getD jj 0 ≠ 20000 ∧
        parent.getD jj 0 ≠ 20000 ∧ succ.getD jj 0 < parent.getD jj 0) ∧
      ((∀ jj, jj < parent.length → succ.getD jj 0 ≠ 20000 → parent.getD jj 0 ≠ 20000 →
        parent.getD jj 0 ≤ succ.getD jj 0) → r.1 = false) := by
  obtain ⟨r, hr, hiff⟩ := IsOccluded_eq_some env parent succ hp hs
  refine ⟨r, hr, hiff, ?_⟩
  intro hall
  by_contra hc
  have ht : r.1 = true := by simpa using hc
  obtain ⟨jj, h1, h2, h3, h4⟩ := hiff.mp ht
  exact absurd h4 (not_lt.mpr (hall jj h1 h2 h3))

/-- Witness for C10: a 2 x 1 parent image with pixel 0 covered and a child image that covers
both pixels, pixel 0 at a smaller depth. -/
theorem IsOccluded_iff_witness :
    ∃ r, IsOccluded demoEnv [500, 20000] [400, 300] = some r ∧
      (r.1 = true ↔ ∃ jj, jj < [500, 20000].length ∧ [400, 300].getD jj 0 ≠ 20000 ∧
        [500, 20000].getD jj 0 ≠ 20000 ∧ [400, 300].getD jj 0 < [500, 20000].getD jj 0) ∧
      ((∀ jj, jj < [500, 20000].length → [400, 300].getD jj 0 ≠ 20000 →
        [500, 20000].getD jj 0 ≠ 20000 → [500, 20000].getD jj 0 ≤ [400, 300].getD jj 0) →
          r.1 = false) :=
  IsOccluded_iff demoEnv [500, 20000] [400, 300] (by decide) (by decide)

/-! ### Edge cost -/

theorem trunc_nonneg (x : ℚ) (h : 0 ≤ x) : 0 ≤ trunc x := by
  unfold trunc
  exact Int.tdiv_nonneg (Rat.num_nonneg.mpr h) (Int.natCast_nonneg _)

theorem nn_score_nonneg (env : Env) (cloud : List PointT) (init : ℚ) (h : 0 ≤ init) :
    0 ≤ cloud.foldl
      (fun nn_score point =>
        let num_neighbors_found := env.knn_radiusSearch point kSensorResolution
        if num_neighbors_found = 0 then nn_score + 1.0 else nn_score + 0.0) init := by
  induction cloud generalizing init with
  | nil => exact h
  | cons pt rest ih =>
    rw [List.foldl_cons]
    apply ih
    simp only
    split_ifs
    · norm_num
      linarith
    · norm_num
      exact h

theorem GetTargetCost_nonneg (env : Env) (cloud : List PointT) : 0 ≤ GetTargetCost env cloud := by
  unfold GetTargetCost static_cast_int
  exact trunc_nonneg _ (nn_score_nonneg env cloud 0 (le_refl _))

theorem GetTrueCost_adjust_eq_some (env : Env) (source_state child_state : State)
    (hchild : child_state.object_ids ≠ [])
    (hsrc : source_state.object_ids.length = source_state.object_poses.length) :
    ∃ adj, GetTrueCost_adjust env source_state child_state =
        some (env.get_depth_image_uint (env.doSim source_state), adj) ∧
      adj.object_ids = child_state.object_ids ∧
      adj.object_poses.length = child_state.object_poses.length := by
  unfold GetTrueCost_adjust GetDepthImage
  have h0 : child_state.object_ids.length ≠ 0 := by
    intro hc
    exact hchild (List.length_eq_zero.mp hc)
  simp only [h0, hsrc, if_false, ne_eq, not_true_eq_false, List.length_cons, List.length_nil]
  exact ⟨_, rfl, rfl, by simp⟩

/-- C9.  When none of its assertions fails (the child state is not empty, the source and the
child state hold as many poses as ids, the renderer returns images of the configured size),
`GetTrueCost` returns either a value `>= 0` or exactly `-1`, and it returns `-1` exactly when
the ICP-refined pose of the newly added object fails `IsValidPose` against the parent state or
`IsOccluded` reports occlusion between the parent render and the adjusted-child render. -/
theorem GetTrueCost_sentinel (env : Env) (source_state child_state : State)
    (parent_id child_id : Int)
    (hchild : child_state.object_ids ≠ [])
    (hsrc : source_state.object_ids.length = source_state.object_poses.length)
    (hcl : child_state.object_ids.length = child_state.object_poses.length)
    (hrender : ∀ s, ((env.get_depth_image_uint (env.doSim s)).length : Int) =
      env.env_params_.img_width * env.env_params_.img_height) :
    ∃ adj cost props,
      GetTrueCost_adjust env source_state child_state =
        some (env.get_depth_image_uint (env.doSim source_state), adj) ∧
      GetTrueCost env source_state child_state parent_id child_id = some (cost, adj, props) ∧
      (0 ≤ cost ∨ cost = -1) ∧
      (cost = -1 ↔
        IsValidPose env source_state (child_state.object_ids.getLastD 0)
          (adj.object_poses.getLastD default) = false ∨
        ∃ r, IsOccluded env (env.get_depth_image_uint (env.doSim source_state))
          (env.get_depth_image_uint (env.doSim adj)) = some r ∧ r.1 = true) := by
  obtain ⟨adj, hadj, hids, hposes⟩ :=
    GetTrueCost_adjust_eq_some env source_state child_state hchild hsrc
  have hadjlen : adj.object_ids.length = adj.object_poses.length := by
    rw [hids, hposes, hcl]
  obtain ⟨r, hr, _⟩ := IsOccluded_eq_some env _ _ (hrender source_state) (hrender adj)
  by_cases hvalid : IsValidPose env source_state (child_state.object_ids.getLastD 0)
      (adj.object_poses.getLastD default) = true
  · obtain ⟨occ, idx, mn, mx⟩ := r
    cases occ with
    | true =>
      have hG : GetTrueCost env source_state child_state parent_id child_id =
          some (-1, adj, ⟨0, 20000⟩) := by
        unfold GetTrueCost
        rw [hadj]
        simp only [hvalid, Bool.not_true, Bool.false_eq_true, if_false, GetDepthImage, hadjlen,
          ne_eq, not_true_eq_false, hr, if_true]
      exact ⟨adj, -1, _, hadj, hG, Or.inr rfl, fun _ => Or.inr ⟨_, hr, rfl⟩, fun _ => rfl⟩
    | false =>
      have hG : GetTrueCost env source_state child_state parent_id child_id =
          some (GetTargetCost env (env.getPointCloudFromBuffer
            (newPixelBuffer env (env.get_depth_image_uint (env.doSim adj))
              (env.get_depth_image_uint (env.doSim source_state)) (env.doSim adj))),
            adj, ⟨mn, mx⟩) := by
        unfold GetTrueCost
        rw [hadj]
        simp only [hvalid, Bool.not_true, Bool.false_eq_true, if_false, GetDepthImage, hadjlen,
          ne_eq, not_true_eq_false, hr, zero_add]
      have hnn := GetTargetCost_nonneg env (env.getPointCloudFromBuffer
        (newPixelBuffer env (env.get_depth_image_uint (env.doSim adj))
          (env.get_depth_image_uint (env.doSim source_state)) (env.doSim adj)))
      refine ⟨adj, _, _, hadj, hG, Or.inl hnn, ?_, ?_⟩
      · intro hc
        rw [hc] at hnn
        exact absurd hnn (by decide)
      · rintro (h | ⟨r2, h1, h2⟩)
        · rw [hvalid] at h
          cases h
        · rw [hr] at h1
          cases h1
          cases h2
  · have hv : IsValidPose env source_state (child_state.object_ids.getLastD 0)
        (adj.object_poses.getLastD default) = false := by simpa using hvalid
    have hG : GetTrueCost env source_state child_state parent_id child_id =
        some (-1, adj, ⟨0, 20000⟩) := by
      unfold GetTrueCost
      rw [hadj]
      simp only [hv, Bool.not_false, if_true]
    exact ⟨adj, -1, _, hadj, hG, Or.inr rfl, fun _ => Or.inl hv, fun _ => rfl⟩

/-- Witness for C9: the empty source state and the child that places model 0 at x = 0.1; the
toy renderer covers one new pixel, and the point it yields has no observed neighbour. -/
theorem GetTrueCost_sentinel_witness :
    GetTrueCost demoEnv State.empty (stateAt 0 0.1) 1 2 = some (1, stateAt 0 0.1, ⟨500, 500⟩) ∧
    ∃ adj cost props,
      GetTrueCost_adjust demoEnv State.empty (stateAt 0 0.1) =
        some (demoEnv.get_depth_image_uint (demoEnv.doSim State.empty), adj) ∧
      GetTrueCost demoEnv State.empty (stateAt 0 0.1) 1 2 = some (cost, adj, props) ∧
      (0 ≤ cost ∨ cost = -1) ∧
      (cost = -1 ↔
        IsValidPose demoEnv State.empty ((stateAt 0 0.1).object_ids.getLastD 0)
          (adj.object_poses.getLastD default) = false ∨
        ∃ r, IsOccluded demoEnv (demoEnv.get_depth_image_uint (demoEnv.doSim State.empty))
          (demoEnv.get_depth_image_uint (demoEnv.doSim adj)) = some r ∧ r.1 = true) :=
  ⟨by decide!, GetTrueCost_sentinel demoEnv State.empty (stateAt 0 0.1) 1 2 (by decide)
    (by decide) (by decide) (fun s => by simp [demoEnv])⟩

/-! ### Candidate generation -/

theorem forLE_inv {σ : Type} (Inv : σ → Prop) (hi step : ℚ) (body : ℚ → σ → Option σ)
    (hbody : ∀ x st st1, Inv st → body x st = some st1 → Inv st1) :
    ∀ (fuel : Nat) (x : ℚ) (st st1 : σ), Inv st → forLE hi step body fuel x st = some st1 →
      Inv st1 := by
  intro fuel
  induction fuel with
  | zero =>
    intro x st st1 hst h
    unfold forLE at h
    split_ifs at h
    cases h
    exact hst
  | succ n ih =>
    intro x st st1 hst h
    unfold forLE at h
    split_ifs at h with hx
    · cases hb : body x st with
      | none => simp [hb] at h
      | some st2 =>
        simp only [hb] at h
        exact ih _ _ _ (hbody x st st2 hst hb) h
    · cases h
      exact hst

theorem forLTBreak_inv {σ : Type} (Inv : σ → Prop) (hi step : ℚ) (body : ℚ → σ → σ × Bool)
    (hbody : ∀ x st, Inv st → Inv (body x st).1) :
    ∀ (fuel : Nat) (x : ℚ) (st st1 : σ), Inv st → forLTBreak hi step body fuel x st = some st1 →
      Inv st1 := by
  intro fuel
  induction fuel with
  | zero =>
    intro x st st1 hst h
    unfold forLTBreak at h
    split_ifs at h
    cases h
    exact hst
  | succ n ih =>
    intro x st st1 hst h
    unfold forLTBreak at h
    simp only at h
    split_ifs at h with hx hb
    · cases h
      exact hbody x st hst
    · exact ih _ _ _ (hbody x st hst) h
    · cases h
      exact hst

theorem forLE_terminates {σ : Type} (hi step : ℚ) (body : ℚ → σ → Option σ)
    (hbody : ∀ x st, ∃ st1, body x st = some st1) :
    ∀ (fuel : Nat) (x : ℚ) (st : σ), hi - x < fuel * step →
      ∃ st1, forLE hi step body fuel x st = some st1 := by
  intro fuel
  induction fuel with
  | zero =>
    intro x st h
    unfold forLE
    have : ¬ x ≤ hi := by
      simp only [Nat.cast_zero, zero_mul] at h
      linarith
    rw [if_neg this]
    exact ⟨st, rfl⟩
  | succ n ih =>
    intro x st h
    unfold forLE
    split_ifs with hx
    · obtain ⟨st1, hb⟩ := hbody x st
      rw [hb]
      apply ih
      push_cast at h
      linarith
    · exact ⟨st, rfl⟩

theorem forLTBreak_terminates {σ : Type} (hi step : ℚ)
    (body : ℚ → σ → σ × Bool) :
    ∀ (fuel : Nat) (x : ℚ) (st : σ), hi - x ≤ fuel * step →
      ∃ st1, forLTBreak hi step body fuel x st = some st1 := by
  intro fuel
  induction fuel with
  | zero =>
    intro x st h
    unfold forLTBreak
    have : ¬ x < hi := by
      simp only [Nat.cast_zero, zero_mul] at h
      linarith
    rw [if_neg this]
    exact ⟨st, rfl⟩
  | succ n ih =>
    intro x st h
    unfold forLTBreak
    simp only
    split_ifs with hx hb
    · exact ⟨_, rfl⟩
    · apply ih
      push_cast at h
      linarith
    · exact ⟨st, rfl⟩

theorem child_of_append (source_state child : State) (ii : Int) (p : Pose)
    (hsrc : source_state.object_ids.Nodup) (hii : ii ∉ source_state.object_ids)
    (hc : child = { source_state with
      object_ids := source_state.object_ids ++ [ii]
      object_poses := source_state.object_poses ++ [p] }) :
    child.object_ids.Nodup ∧ (∀ v ∈ source_state.object_ids, v ∈ child.object_ids) ∧
      ∃ v ∈ child.object_ids, v ∉ source_state.object_ids := by
  subst hc
  simp only
  refine ⟨?_, ?_, ?_⟩
  · rw [List.nodup_append]
    refine ⟨hsrc, List.nodup_singleton _, ?_⟩
    intro a ha hb
    rw [List.mem_singleton] at hb
    exact hii (hb ▸ ha)
  · intro v hv
    exact List.mem_append_left _ hv
  · exact ⟨ii, List.mem_append_right _ (List.mem_singleton_self _), hii⟩

theorem GetSuccs_body_inv (ord : StateMapT → StateMapT) (env : Env) (source_state : State)
    (ii : Int) (x y theta : ℚ) (c : Candidates) (P : State → Prop)
    (hP : ∀ p : Pose, P { source_state with
      object_ids := source_state.object_ids ++ [ii]
      object_poses := source_state.object_poses ++ [p] })
    (hc : ∀ child ∈ c.candidate_succs, P child) :
    ∀ child ∈ (GetSuccs_body ord env source_state ii x y theta c).1.candidate_succs,
      P child := by
  unfold GetSuccs_body
  simp only
  split_ifs with hv
  · exact hc
  · intro child hchild
    simp only [List.mem_append, List.mem_singleton] at hchild
    rcases hchild with h | h
    · exact hc child h
    · rw [h]
      exact hP _

theorem GetSuccs_grid_inv (fuel : Nat) (ord : StateMapT → StateMapT) (env : Env)
    (source_state : State) (ii : Int) (P : State → Prop)
    (hP : ∀ p : Pose, P { source_state with
      object_ids := source_state.object_ids ++ [ii]
      object_poses := source_state.object_poses ++ [p] })
    (c c1 : Candidates) (hc : ∀ child ∈ c.candidate_succs, P child)
    (h : GetSuccs_grid fuel ord env source_state ii c = some c1) :
    ∀ child ∈ c1.candidate_succs, P child := by
  unfold GetSuccs_grid at h
  refine forLE_inv (fun c => ∀ child ∈ c.candidate_succs, P child) _ _ _ ?_ fuel _ c c1 hc h
  intro x st st1 hst hx
  refine forLE_inv (fun c => ∀ child ∈ c.candidate_succs, P child) _ _ _ ?_ fuel _ st st1 hst hx
  intro y st2 st3 hst2 hy
  refine forLTBreak_inv (fun c => ∀ child ∈ c.candidate_succs, P child) _ _ _ ?_ fuel _ st2 st3
    hst2 hy
  intro theta st4 hst4
  exact GetSuccs_body_inv ord env source_state ii x y theta st4 P hP hst4

theorem GetSuccs_models_inv (fuel : Nat) (ord : StateMapT → StateMapT) (env : Env)
    (source_state : State) (P : State → Prop)
    (hP : ∀ (ii : Int) (p : Pose), ii ∉ source_state.object_ids → P { source_state with
      object_ids := source_state.object_ids ++ [ii]
      object_poses := source_state.object_poses ++ [p] })
    (iis : List Int) (c c1 : Candidates) (hc : ∀ child ∈ c.candidate_succs, P child)
    (h : GetSuccs_models fuel ord env source_state iis c = some c1) :
    ∀ child ∈ c1.candidate_succs, P child := by
  induction iis generalizing c with
  | nil =>
    unfold GetSuccs_models at h
    cases h
    exact hc
  | cons ii rest ih =>
    unfold GetSuccs_models at h
    split_ifs at h with hin
    · exact ih c hc h
    · cases hg : GetSuccs_grid fuel ord env source_state ii c with
      | none => simp [hg] at h
      | some c2 =>
        simp only [hg] at h
        exact ih c2 (GetSuccs_grid_inv fuel ord env source_state ii P (fun p => hP ii p hin)
          c c2 hc hg) h

theorem GetSuccs_grid_terminates (fuel : Nat) (ord : StateMapT → StateMapT) (env : Env)
    (source_state : State) (ii : Int) (c : Candidates)
    (hx : env.env_params_.x_max - env.env_params_.x_min < fuel * env.env_params_.res)
    (hy : env.env_params_.y_max - env.env_params_.y_min < fuel * env.env_params_.res)
    (ht : 2 * M_PI - 0 ≤ fuel * env.env_params_.theta_res) :
    ∃ c1, GetSuccs_grid fuel ord env source_state ii c = some c1 := by
  unfold GetSuccs_grid
  refine forLE_terminates _ _ _ ?_ fuel _ c hx
  intro x st
  refine forLE_terminates _ _ _ ?_ fuel _ st hy
  intro y st2
  exact forLTBreak_terminates _ _ _ fuel 0 st2 ht

theorem GetSuccs_models_terminates (fuel : Nat) (ord : StateMapT → StateMapT) (env : Env)
    (source_state : State) (iis : List Int) (c : Candidates)
    (hx : env.env_params_.x_max - env.env_params_.x_min < fuel * env.env_params_.res)
    (hy : env.env_params_.y_max - env.env_params_.y_min < fuel * env.env_params_.res)
    (ht : 2 * M_PI - 0 ≤ fuel * env.env_params_.theta_res) :
    ∃ c1, GetSuccs_models fuel ord env source_state iis c = some c1 := by
  induction iis generalizing c with
  | nil => exact ⟨c, rfl⟩
  | cons ii rest ih =>
    unfold GetSuccs_models
    split_ifs with hin
    · exact ih c
    · obtain ⟨c2, hg⟩ := GetSuccs_grid_terminates fuel ord env source_state ii c hx hy ht
      rw [hg]
      exact ih c2

theorem exists_fuel (env : Env) (hres : 0 < env.env_params_.res)
    (htheta : 0 < env.env_params_.theta_res) :
    ∃ fuel : Nat,
      env.env_params_.x_max - env.env_params_.x_min < fuel * env.env_params_.res ∧
      env.env_params_.y_max - env.env_params_.y_min < fuel * env.env_params_.res ∧
      2 * M_PI - 0 ≤ fuel * env.env_params_.theta_res := by
  obtain ⟨a, ha⟩ := exists_nat_gt
    ((env.env_params_.x_max - env.env_params_.x_min) / env.env_params_.res)
  obtain ⟨b, hb⟩ := exists_nat_gt
    ((env.env_params_.y_max - env.env_params_.y_min) / env.env_params_.res)
  obtain ⟨d, hd⟩ := exists_nat_gt ((2 * M_PI - 0) / env.env_params_.theta_res)
  rw [div_lt_iff₀ hres] at ha hb
  rw [div_lt_iff₀ htheta] at hd
  refine ⟨a + b + d, ?_, ?_, ?_⟩
  · push_cast
    nlinarith [(Nat.cast_nonneg b : (0 : ℚ) ≤ b), (Nat.cast_nonneg d : (0 : ℚ) ≤ d)]
  · push_cast
    nlinarith [(Nat.cast_nonneg a : (0 : ℚ) ≤ a), (Nat.cast_nonneg d : (0 : ℚ) ≤ d)]
  · push_cast
    nlinarith [(Nat.cast_nonneg a : (0 : ℚ) ≤ a), (Nat.cast_nonneg b : (0 : ℚ) ≤ b)]

/-- C8.  For every source state with unique model ids, every candidate child state that
`GetSuccs` builds consists of the ids and poses of the parent, unchanged and in the same
positions, followed by exactly one placement of a model id that is not in the parent; hence no
child has a duplicate model id and the object set of every child strictly contains that of
its parent.  The candidate loops return whenever the two grid resolutions are positive. -/
theorem GetSuccs_children_append_only (ord : StateMapT → StateMapT) (env : Env) (m : StateMapT)
    (source_state : State) (hsrc : source_state.object_ids.Nodup) :
    (0 < env.env_params_.res → 0 < env.env_params_.theta_res →
      ∃ fuel out, GetSuccs_candidates fuel ord env m source_state = some out) ∧
    ∀ fuel out, GetSuccs_candidates fuel ord env m source_state = some out →
      ∀ child ∈ out.candidate_succs,
        (∃ ii p, ii ∉ source_state.object_ids ∧
          child.object_ids = source_state.object_ids ++ [ii] ∧
          child.object_poses = source_state.object_poses ++ [p] ∧
          child.disc_object_poses = source_state.disc_object_poses) ∧
        child.object_ids.Nodup ∧
        (∀ v ∈ source_state.object_ids, v ∈ child.object_ids) ∧
        ∃ v ∈ child.object_ids, v ∉ source_state.object_ids := by
  constructor
  · intro hres htheta
    obtain ⟨fuel, hx, hy, ht⟩ := exists_fuel env hres htheta
    obtain ⟨out, hout⟩ := GetSuccs_models_terminates fuel ord env source_state
      ((List.range env.env_params_.num_models.toNat).map fun ii => (ii : Int)) ⟨m, [], []⟩
      hx hy ht
    exact ⟨fuel, out, hout⟩
  · intro fuel out h
    unfold GetSuccs_candidates at h
    refine GetSuccs_models_inv fuel ord env source_state _ ?_ _ ⟨m, [], []⟩ out ?_ h
    · intro ii p hii
      exact ⟨⟨ii, p, hii, rfl, rfl, rfl⟩, child_of_append source_state _ ii p hsrc hii rfl⟩
    · intro child hchild
      simp at hchild

/-- Witness for C8: the empty start state in an environment with one grid sample and two yaw
samples; three candidates are built. -/
theorem GetSuccs_children_append_only_witness :
    (GetSuccs_candidates 3 id tinyEnv initialStateMap State.empty).map
        (fun c => c.candidate_succs) =
      some [⟨[0], [], [⟨0, 0, 0⟩]⟩, ⟨[0], [], [⟨0, 0, M_PI⟩]⟩, ⟨[1], [], [⟨0, 0, 0⟩]⟩] ∧
    ((0 < tinyEnv.env_params_.res → 0 < tinyEnv.env_params_.theta_res →
      ∃ fuel out, GetSuccs_candidates fuel id tinyEnv initialStateMap State.empty = some out) ∧
    ∀ fuel out, GetSuccs_candidates fuel id tinyEnv initialStateMap State.empty = some out →
      ∀ child ∈ out.candidate_succs,
        (∃ ii p, ii ∉ State.empty.object_ids ∧
          child.object_ids = State.empty.object_ids ++ [ii] ∧
          child.object_poses = State.empty.object_poses ++ [p] ∧
          child.disc_object_poses = State.empty.disc_object_poses) ∧
        child.object_ids.Nodup ∧
        (∀ v ∈ State.empty.object_ids, v ∈ child.object_ids) ∧
        ∃ v ∈ child.object_ids, v ∉ State.empty.object_ids) :=
  ⟨by decide!, GetSuccs_children_append_only id tinyEnv initialStateMap State.empty
    (by decide)⟩

/-! ### Padding of the scatter buffer -/

theorem to_size_t_of_nonneg (z : Int) (h0 : 0 ≤ z) (h1 : z < 2 ^ 64) :
    to_size_t z = z.toNat := by
  unfold to_size_t
  rw [Int.emod_eq_of_lt h0 h1]

theorem to_int_of_lt (n : Nat) (h : n < 2 ^ 31) : to_int n = (n : Int) := by
  unfold to_int
  have h1 : n % 2 ^ 32 = n := Nat.mod_eq_of_lt (by omega)
  rw [h1, if_pos h]

theorem next_multiple_eq (n : Nat) (num_proc : Int) (hP : 1 ≤ num_proc)
    (hb : (n : Int) + num_proc < 2 ^ 31) :
    next_multiple n num_proc = ((n + num_proc.toNat - n % num_proc.toNat : Nat) : Int) := by
  have hp0 : 0 < num_proc.toNat := by omega
  have hmod : n % num_proc.toNat < num_proc.toNat := Nat.mod_lt _ hp0
  have hsum : n + num_proc.toNat < 2 ^ 31 := by omega
  unfold next_multiple
  rw [to_size_t_of_nonneg num_proc (by omega) (by omega)]
  have e1 : (n + num_proc.toNat) % 2 ^ 64 = n + num_proc.toNat := Nat.mod_eq_of_lt (by omega)
  rw [e1]
  have e2 : (n + num_proc.toNat + 2 ^ 64 - n % num_proc.toNat) % 2 ^ 64 =
      n + num_proc.toNat - n % num_proc.toNat := by
    have : n + num_proc.toNat + 2 ^ 64 - n % num_proc.toNat =
        (n + num_proc.toNat - n % num_proc.toNat) + 2 ^ 64 := by omega
    rw [this, Nat.add_mod_right]
    exact Nat.mod_eq_of_lt (by omega)
  rw [e2]
  exact to_int_of_lt _ (by omega)

theorem next_multiple_eq_mul (n p : Nat) (hp : 0 < p) :
    n + p - n % p = p * (n / p + 1) := by
  have h := Nat.div_add_mod n p
  have hmod : n % p < p := Nat.mod_lt _ hp
  have : n + p - n % p = p * (n / p) + p := by omega
  rw [this, Nat.mul_add, Nat.mul_one]

/-- C11 (as amended).  For every candidate count `N >= 0` and pool size `P >= 1` with `N + P`
in the range of `int`, the padded count `next_multiple` that `GetSuccs` computes is
`N + P - N % P`: it is a multiple of `P`, it is strictly greater than `N`, and it is the
smallest such multiple. -/
theorem next_multiple_spec (n : Nat) (num_proc : Int) (hP : 1 ≤ num_proc)
    (hb : (n : Int) + num_proc < 2 ^ 31) :
    next_multiple n num_proc = (n : Int) + num_proc - (n : Int) % num_proc ∧
    num_proc ∣ next_multiple n num_proc ∧
    (n : Int) < next_multiple n num_proc ∧
    ∀ k : Int, num_proc ∣ k → (n : Int) < k → next_multiple n num_proc ≤ k := by
  have hp0 : 0 < num_proc.toNat := by omega
  have hcast : ((num_proc.toNat : Nat) : Int) = num_proc := Int.toNat_of_nonneg (by omega)
  have hmod : n % num_proc.toNat < num_proc.toNat := Nat.mod_lt _ hp0
  have hdm := Nat.div_add_mod n num_proc.toNat
  have hval := next_multiple_eq n num_proc hP hb
  have hmul := next_multiple_eq_mul n num_proc.toNat hp0
  have hInt : next_multiple n num_proc = num_proc * (((n / num_proc.toNat : Nat) : Int) + 1) := by
    rw [hval, hmul, Nat.cast_mul, hcast, Nat.cast_add, Nat.cast_one]
  refine ⟨?_, ?_, ?_, ?_⟩
  · rw [hval]
    have hle : n % num_proc.toNat ≤ n + num_proc.toNat := by omega
    rw [Int.ofNat_sub hle]
    push_cast
    rw [hcast]
  · rw [hInt]
    exact Dvd.intro _ rfl
  · rw [hval]
    have : n < n + num_proc.toNat - n % num_proc.toNat := by omega
    exact_mod_cast this
  · rintro k ⟨q, rfl⟩ hk
    rw [hInt]
    have hq : ((n / num_proc.toNat : Nat) : Int) < q := by
      by_contra hc
      have hle : q ≤ ((n / num_proc.toNat : Nat) : Int) := not_lt.mp hc
      have h1 : num_proc * q ≤ num_proc * ((n / num_proc.toNat : Nat) : Int) :=
        Int.mul_le_mul_of_nonneg_left hle (by omega)
      have h2 : num_proc * ((n / num_proc.toNat : Nat) : Int) ≤ (n : Int) := by
        have : num_proc.toNat * (n / num_proc.toNat) ≤ n := Nat.mul_div_le n _
        have h3 : ((num_proc.toNat * (n / num_proc.toNat) : Nat) : Int) ≤ (n : Int) := by
          exact_mod_cast this
        rw [Nat.cast_mul, hcast] at h3
        exact h3
      omega
    exact Int.mul_le_mul_of_nonneg_left (by omega) (by omega)

/-- Witness for C11: three candidates on a pool of two processes are padded to four. -/
theorem next_multiple_spec_witness :
    next_multiple 3 2 = 4 ∧
    (next_multiple 3 2 = ((3 : Nat) : Int) + 2 - ((3 : Nat) : Int) % 2 ∧
    (2 : Int) ∣ next_multiple 3 2 ∧
    ((3 : Nat) : Int) < next_multiple 3 2 ∧
    ∀ k : Int, (2 : Int) ∣ k → ((3 : Nat) : Int) < k → next_multiple 3 2 ≤ k) :=
  ⟨by decide!, next_multiple_spec 3 2 (by decide) (by decide)⟩

/-- C11 (as stated) fails when the pool size divides the candidate count: four candidates on
a pool of two processes are padded to six, and 4 is a smaller multiple of 2 that is `>= 4`;
no candidate on a pool of one process is padded to one message. -/
theorem next_multiple_not_least :
    (next_multiple 4 2 = 6 ∧
      ∃ k : Int, (2 : Int) ∣ k ∧ (4 : Int) ≤ k ∧ k < next_multiple 4 2) ∧
    (next_multiple 0 1 = 1 ∧
      ∃ k : Int, (1 : Int) ∣ k ∧ (0 : Int) ≤ k ∧ k < next_multiple 0 1) := by
  refine ⟨⟨by decide!, 4, ⟨2, by decide⟩, by decide, by decide!⟩,
    ⟨by decide!, 0, ⟨0, by decide⟩, by decide, by decide!⟩⟩

/-! ### The merge loop and the returned successors -/

/-- C12, evaluated.  The start state (id 1) is expanded in `tinyEnv`: the first call of
`GetSuccs` returns the successor ids 2, 3, 4 with the costs 1, 1, 0; the second call with the
same id returns the ids 2, 3, 4 again, and as costs the ids 2, 3, 4, although `cost_cache`
holds 1, 1, 0. -/
theorem GetSuccs_second_call_costs :
    (GetSuccs 3 id tinyEnv ⟨initialStateMap, [], []⟩ 1).map (fun r => (r.2.1, r.2.2)) =
      some ([2, 3, 4], [1, 1, 0]) ∧
    (GetSuccs 3 id tinyEnv ⟨initialStateMap, [], []⟩ 1).map
      (fun r => cache_find r.1.cost_cache 1) = some (some [1, 1, 0]) ∧
    ((GetSuccs 3 id tinyEnv ⟨initialStateMap, [], []⟩ 1).bind fun r =>
      (GetSuccs 3 id tinyEnv r.1 1).map (fun r2 => (r2.2.1, r2.2.2))) =
      some ([2, 3, 4], [2, 3, 4]) := by
  decide!

/-! ### Packing a state into a message -/

/-- C16, evaluated.  Three models with the sorted residuals 0.1, 0.2, 0.3 and three objects;
the state `s` places model 2 only, so `K = 2` objects are still needed.  The specification
asks for 1000000 * (0.1 + 0.2) = 300000; `GetICPHeuristic` starts its counter
`num_objects_assigned` at `num_objects - |s| = 2`, leaves the loop after the first unassigned
model and returns 100000.  For the empty state in an environment with two objects it sums
both residuals, as the specification asks. -/
theorem GetICPHeuristic_counts_from_remaining :
    GetICPHeuristic icpEnv (stateAt 2 0) = 100000 ∧
    spec_ICPHeuristic icpEnv (stateAt 2 0) = 300000 ∧
    GetICPHeuristic demoEnv State.empty = 300000 ∧
    spec_ICPHeuristic demoEnv State.empty = 300000 := by
  decide!

/-- C17.  For every registered state id other than the goal id, `GetGoalHeuristic` with
heuristic index 1 returns the number of objects not yet placed in the registered state:
`num_objects` minus the number of its placements. -/
theorem GetGoalHeuristic_remaining (env : Env) (m : StateMapT) (hk : m.keys.Nodup)
    (state_id : Int) (s : State) (hmem : (state_id, s) ∈ m)
    (hng : state_id ≠ env.env_params_.goal_state_id) :
    GetGoalHeuristic env m 1 state_id =
      env.env_params_.num_objects - (s.object_ids.length : Int) := by
  unfold GetGoalHeuristic
  rw [if_neg hng, StateIDToState_of_mem m hk state_id s hmem]
  simp

/-- Witness for C17: the state registered under id 2 places one of two objects. -/
theorem GetGoalHeuristic_remaining_witness :
    GetGoalHeuristic demoEnv [(0, goal_state_), (1, State.empty), (2, stateAt 0 0.1)] 1 2 = 1 ∧
    GetGoalHeuristic demoEnv [(0, goal_state_), (1, State.empty), (2, stateAt 0 0.1)] 1 2 =
      demoEnv.env_params_.num_objects - ((stateAt 0 0.1).object_ids.length : Int) :=
  ⟨by decide!, GetGoalHeuristic_remaining demoEnv
    [(0, goal_state_), (1, State.empty), (2, stateAt 0 0.1)] (by decide!) 2 (stateAt 0 0.1)
    (by decide!) (by decide!)⟩

theorem pathEnd_length (s : State) (path : List (State × Int)) (h : IsSuccessorPath s path) :
    (pathEnd s path).object_ids.length = s.object_ids.length + path.length := by
  induction path generalizing s with
  | nil => rfl
  | cons e rest ih =>
    obtain ⟨child, cost⟩ := e
    obtain ⟨h1, h2⟩ := h
    simp only [pathEnd, List.length_cons]
    rw [ih child h2, h1]
    omega

theorem path_length_le_sum (path : List (State × Int)) (h : ∀ e ∈ path, 1 ≤ e.2) :
    (path.length : Int) ≤ (path.map Prod.snd).sum := by
  induction path with
  | nil => simp
  | cons e rest ih =>
    have h1 := h e (List.mem_cons_self _ _)
    have h2 := ih (fun x hx => h x (List.mem_cons_of_mem _ hx))
    simp only [List.length_cons, List.map_cons, List.sum_cons]
    push_cast
    omega

/-- C18 (as amended).  Heuristic 1 is admissible whenever every edge cost is at least 1: for
every registered state `s` and every path of successor edges, each adding one placement, from
`s` to a state with all objects placed, if every edge cost of the path is `>= 1` then the
heuristic-1 value of `s` is at most the sum of the edge costs of the path. -/
theorem heuristic_one_admissible (env : Env) (m : StateMapT) (hk : m.keys.Nodup)
    (state_id : Int) (s : State) (hmem : (state_id, s) ∈ m) (path : List (State × Int))
    (hpath : IsSuccessorPath s path) (hgoal : IsGoalState env (pathEnd s path) = true)
    (hcost : ∀ e ∈ path, 1 ≤ e.2) :
    GetGoalHeuristic env m 1 state_id ≤ (path.map Prod.snd).sum := by
  have hsum := path_length_le_sum path hcost
  by_cases hg : state_id = env.env_params_.goal_state_id
  · unfold GetGoalHeuristic
    rw [if_pos hg]
    exact le_trans (Int.natCast_nonneg _) hsum
  · rw [GetGoalHeuristic_remaining env m hk state_id s hmem hg]
    have hlen := pathEnd_length s path hpath
    unfold IsGoalState at hgoal
    split_ifs at hgoal with hn
    rw [← hn, hlen]
    push_cast
    omega

/-- Witness for C18: from the state that places model 0, one edge of cost 3 reaches a state
with both objects placed. -/
theorem heuristic_one_admissible_witness :
    GetGoalHeuristic demoEnv [(0, goal_state_), (1, State.empty), (2, stateAt 0 0.1)] 1 2 ≤
      ([(twoState, (3 : Int))].map Prod.snd).sum :=
  heuristic_one_admissible demoEnv [(0, goal_state_), (1, State.empty), (2, stateAt 0 0.1)]
    (by decide!) 2 (stateAt 0 0.1) (by decide!) [(twoState, 3)] ⟨by decide!, trivial⟩
    (by decide!) (by decide!)

/-- C18 (as stated) fails, because an edge may cost 0.  In `demoEnv` the state that places
model 0 has heuristic-1 value 1; `GetTrueCost` gives the edge that adds model 1 at x = -0.3
the cost 0 (the one new point has an observed neighbour), and that edge reaches a state with
both objects placed: the path has non-negative edge costs and the sum 0. -/
theorem heuristic_one_not_admissible :
    GetGoalHeuristic demoEnv [(0, goal_state_), (1, State.empty), (2, stateAt 0 0.1)] 1 2 = 1 ∧
    GetTrueCost demoEnv (stateAt 0 0.1) twoState 2 3 = some (0, twoState, ⟨300, 300⟩) ∧
    IsSuccessorPath (stateAt 0 0.1) [(twoState, 0)] ∧
    IsGoalState demoEnv (pathEnd (stateAt 0 0.1) [(twoState, 0)]) = true ∧
    (∀ e ∈ [(twoState, (0 : Int))], 0 ≤ e.2) ∧
    ¬ (GetGoalHeuristic demoEnv [(0, goal_state_), (1, State.empty), (2, stateAt 0 0.1)] 1 2 ≤
      ([(twoState, (0 : Int))].map Prod.snd).sum) := by
  refine ⟨by decide, by decide!, ⟨by decide, trivial⟩, by decide, ?_, by decide⟩
  intro e he
  rw [List.mem_singleton] at he
  rw [he]

/-! ### Ordered equality -/

/-- C20, evaluated.  `WrapAngle` reduces modulo 360, not modulo 2π: the yaw 7 (more than a
full turn, 2π < 6.2832) is returned unchanged, the yaw `2 * M_PI` is returned unchanged
instead of 0, and the poses with the yaws 0 and `2 * M_PI`, a full turn apart, do not compare
equal, while the yaws 0 and 360 do. -/
theorem WrapAngle_wraps_at_360 :
    WrapAngle 7 = 7 ∧ 2 * M_PI < 6.2832 ∧
    WrapAngle (2 * M_PI) = 2 * M_PI ∧
    Pose.Equals ⟨0, 0, 0⟩ ⟨0, 0, 2 * M_PI⟩ false = false ∧
    Pose.Equals ⟨0, 0, 0⟩ ⟨0, 0, 360⟩ false = true := by
  decide!

/-! ### Pose equality is a tolerance relation -/

/-- C30.  Pose equality is not transitive, and neither is `StatesEqual`: the poses `a`, `b`
and `c` at x = 0, 0.015 and 0.03 (same y and yaw) satisfy `a.Equals(b)` and `b.Equals(c)` but
not `a.Equals(c)`, for a symmetric and for a non-symmetric model; the three states that place
model 0 at these poses are equal in the first two pairs and different in the third. -/
theorem Equals_not_transitive :
    (∃ a b c : Pose, ∀ symmetric : Bool, a.Equals b symmetric = true ∧
      b.Equals c symmetric = true ∧ a.Equals c symmetric = false) ∧
    (∃ s1 s2 s3 : State, StatesEqual demoEnv s1 s2 = true ∧ StatesEqual demoEnv s2 s3 = true ∧
      StatesEqual demoEnv s1 s3 = false) := by
  refine ⟨⟨⟨0, 0, 0⟩, ⟨0.015, 0, 0⟩, ⟨0.03, 0, 0⟩, ?_⟩,
    ⟨stateAt 0 0, stateAt 0 0.015, stateAt 0 0.03, ?_, ?_, ?_⟩⟩
  · intro symmetric
    cases symmetric <;> decide!
  · decide!
  · decide!
  · decide!

/-! ### Pose validity -/

/-- C22.  `IsValidPose(s, m, p)` returns true exactly when (a) the radius search of the
observed cloud around the support point `(p.x, p.y, max_z(m) / 2 + table_height)` with the
radius `circumscribed_radius(m) + res / 2` finds at least one point, and (b) for every object
placed in `s` the squared planar distance between `p` and the pose of that object is at least
`(inscribed_radius(m) + inscribed_radius(that object))^2`. -/
theorem IsValidPose_iff (env : Env) (s : State) (model_id : Int) (p : Pose) :
    IsValidPose env s model_id p = true ↔
      env.knn_radiusSearch
        ⟨p.x, p.y, (env.model model_id).max_z / 2 + env.env_params_.table_height⟩
        ((env.model model_id).GetCircumscribedRadius + env.env_params_.res / 2) ≥ 1 ∧
      ∀ ii, ii < s.object_ids.length →
        (p.x - (s.object_poses.getD ii default).x) ^ 2 +
            (p.y - (s.object_poses.getD ii default).y) ^ 2 ≥
          ((env.model model_id).GetInscribedRadius +
            (env.model (s.object_ids.getD ii 0)).GetInscribedRadius) ^ 2 := by
  unfold IsValidPose
  simp only
  by_cases h0 : env.knn_radiusSearch
      ⟨p.x, p.y, (env.model model_id).max_z / 2 + env.env_params_.table_height⟩
      ((env.model model_id).GetCircumscribedRadius + env.env_params_.res / 2) = 0
  · rw [if_pos h0]
    simp [h0]
  · rw [if_neg h0]
    have h1 : env.knn_radiusSearch
        ⟨p.x, p.y, (env.model model_id).max_z / 2 + env.env_params_.table_height⟩
        ((env.model model_id).GetCircumscribedRadius + env.env_params_.res / 2) ≥ 1 := by
      omega
    simp only [List.all_eq_true, List.mem_range, h1, true_and]
    constructor
    · intro h ii hii
      have := h ii hii
      split_ifs at this with hlt
      rw [ge_iff_le, pow_two, pow_two, pow_two]
      exact not_lt.mp hlt
    · intro h ii hii
      have := h ii hii
      rw [ge_iff_le, pow_two, pow_two, pow_two] at this
      rw [if_neg (not_lt.mpr this)]

/-! ### New pixels and their depth range -/

theorem IsOccluded_loop_false (parent succ : List Nat) (n jj : Nat)
    (acc : List Int × Nat × Nat)
    (h : (IsOccluded_loop parent succ n jj acc).1 = false) :
    (IsOccluded_loop parent succ n jj acc).2 =
      (acc.1 ++ ((List.range' jj n).filter (isNewPixel parent succ)).map
            Int.ofNat,
        (((List.range' jj n).filter (isNewPixel parent succ)).map
            (fun k => succ.getD k 0)).foldl min acc.2.1,
        (((List.range' jj n).filter (isNewPixel parent succ)).map
            (fun k => succ.getD k 0)).foldl max acc.2.2) := by
  induction n generalizing jj acc with
  | zero =>
    obtain ⟨a, b, c⟩ := acc
    simp [IsOccluded_loop]
  | succ n ih =>
    obtain ⟨a, b, c⟩ := acc
    unfold IsOccluded_loop at h ⊢
    simp only at h ⊢
    by_cases hocc : succ.getD jj 0 ≠ kBackground ∧ parent.getD jj 0 ≠ kBackground ∧
        succ.getD jj 0 < parent.getD jj 0
    · rw [if_pos hocc] at h
      cases h
    · rw [if_neg hocc] at h ⊢
      rw [ih _ _ h]
      by_cases hnew : succ.getD jj 0 ≠ kBackground ∧ parent.getD jj 0 = kBackground
      · rw [if_pos hnew]
        have hmin : (if succ.getD jj 0 ≠ kBackground ∧ succ.getD jj 0 < b then succ.getD jj 0
            else b) = min b (succ.getD jj 0) := by
          by_cases hlt : succ.getD jj 0 < b
          · rw [if_pos ⟨hnew.1, hlt⟩, min_eq_right (le_of_lt hlt)]
          · rw [if_neg (fun hc => hlt hc.2), min_eq_left (not_lt.mp hlt)]
        have hmax : (if succ.getD jj 0 ≠ kBackground ∧ succ.getD jj 0 > c then succ.getD jj 0
            else c) = max c (succ.getD jj 0) := by
          by_cases hgt : succ.getD jj 0 > c
          · rw [if_pos ⟨hnew.1, hgt⟩, max_eq_right (le_of_lt hgt)]
          · rw [if_neg (fun hc => hgt hc.2), max_eq_left (not_lt.mp hgt)]
        have hP : isNewPixel parent succ jj = true := decide_eq_true hnew
        rw [hmin, hmax, List.range'_succ, List.filter_cons_of_pos hP]
        simp only [List.map_cons, List.foldl_cons, List.append_assoc, List.singleton_append,
          Int.ofNat_eq_coe]
      · have hP : ¬ isNewPixel parent succ jj = true := by
          intro hc
          exact hnew (of_decide_eq_true hc)
        rw [if_neg hnew, List.range'_succ, List.filter_cons_of_neg hP]

/-- C23 (as amended).  When `IsOccluded` returns false, `new_pixel_indices` is exactly the
ascending list of the pixels that are non-background in the child image and background in the
parent image, `min_succ_depth` is the minimum of 20000 and the child depths over that
new-pixel set, and `max_succ_depth` is the maximum of 0 and the child depths over that set. -/
theorem IsOccluded_new_pixels (env : Env) (parent succ : List Nat) (idx : List Int)
    (mn mx : Nat) (h : IsOccluded env parent succ = some (false, idx, mn, mx)) :
    idx = (spec_newPixels parent succ
      (env.env_params_.img_width * env.env_params_.img_height).toNat).map Int.ofNat ∧
    mn = ((spec_newPixels parent succ
      (env.env_params_.img_width * env.env_params_.img_height).toNat).map
        (fun k => succ.getD k 0)).foldl min 20000 ∧
    mx = ((spec_newPixels parent succ
      (env.env_params_.img_width * env.env_params_.img_height).toNat).map
        (fun k => succ.getD k 0)).foldl max 0 := by
  unfold IsOccluded at h
  simp only at h
  split_ifs at h with h1 h2 h3
  · cases h
  · have hf : (IsOccluded_loop parent succ
        (env.env_params_.img_width * env.env_params_.img_height).toNat 0
        ([], kBackground, 0)).1 = false := by simpa using h3
    have key := IsOccluded_loop_false parent succ _ 0 ([], kBackground, 0) hf
    simp only [Option.some.injEq] at h
    rw [Prod.ext_iff] at h
    obtain ⟨-, h⟩ := h
    simp only at h
    rw [key] at h
    simp only [List.nil_append, Prod.mk.injEq] at h
    obtain ⟨ha, hb, hc⟩ := h
    exact ⟨ha.symm, hb.symm, hc.symm⟩

/-- Witness for C23: a parent image with pixel 0 covered and a child image that covers both
pixels without occlusion; pixel 1 is the only new pixel. -/
theorem IsOccluded_new_pixels_witness :
    IsOccluded demoEnv [500, 20000] [500, 300] = some (false, [1], 300, 300) ∧
    ([1] : List Int) = (spec_newPixels [500, 20000] [500, 300]
      (demoEnv.env_params_.img_width * demoEnv.env_params_.img_height).toNat).map
        Int.ofNat ∧
    300 = ((spec_newPixels [500, 20000] [500, 300]
      (demoEnv.env_params_.img_width * demoEnv.env_params_.img_height).toNat).map
        (fun k => [500, 300].getD k 0)).foldl min 20000 ∧
    300 = ((spec_newPixels [500, 20000] [500, 300]
      (demoEnv.env_params_.img_width * demoEnv.env_params_.img_height).toNat).map
        (fun k => [500, 300].getD k 0)).foldl max 0 :=
  ⟨by decide, IsOccluded_new_pixels demoEnv [500, 20000] [500, 300] [1] 300 300 (by decide)⟩

/-- C23 (as stated) fails.  A child image that adds no pixel to the parent image (the new
object is hidden behind the objects of the parent) is not occluded and has an empty new-pixel
set; `IsOccluded` returns false with `min_succ_depth = 20000` and `max_succ_depth = 0`, which
are the minimum and the maximum of no set of depths (the minimum is above the maximum).  For a
new pixel of depth 30000, above the background value, `min_succ_depth` stays 20000, which is
not the depth of the only new pixel. -/
theorem IsOccluded_depth_range_sentinels :
    IsOccluded demoEnv [500, 20000] [500, 20000] = some (false, [], 20000, 0) ∧
    spec_newPixels [500, 20000] [500, 20000] 2 = [] ∧
    IsOccluded demoEnv [500, 20000] [500, 30000] = some (false, [1], 20000, 30000) ∧
    (spec_newPixels [500, 20000] [500, 30000] 2).map (fun k => [500, 30000].getD k 0) =
      [30000] := by
  decide

/-! ### Target cost and the adjusted child state -/

theorem trunc_natCast (k : Nat) : trunc (k : ℚ) = (k : Int) := by
  unfold trunc
  simp

theorem nn_score_eq (env : Env) (cloud : List PointT) (init : Nat) :
    cloud.foldl
      (fun nn_score point =>
        let num_neighbors_found := env.knn_radiusSearch point kSensorResolution
        if num_neighbors_found = 0 then nn_score + 1.0 else nn_score + 0.0) (init : ℚ) =
      ((init + (cloud.filter (isUnexplained env)).length : Nat) : ℚ) := by
  induction cloud generalizing init with
  | nil => simp
  | cons pt rest ih =>
    rw [List.foldl_cons]
    by_cases h0 : env.knn_radiusSearch pt kSensorResolution = 0
    · have hstep : (if env.knn_radiusSearch pt kSensorResolution = 0 then (init : ℚ) + 1.0
          else (init : ℚ) + 0.0) = ((init + 1 : Nat) : ℚ) := by
        rw [if_pos h0]
        push_cast
        norm_num
      simp only
      have hP : isUnexplained env pt = true := decide_eq_true h0
      rw [hstep, ih, List.filter_cons_of_pos hP, List.length_cons]
      congr 1
      omega
    · have hstep : (if env.knn_radiusSearch pt kSensorResolution = 0 then (init : ℚ) + 1.0
          else (init : ℚ) + 0.0) = ((init : Nat) : ℚ) := by
        rw [if_neg h0]
        norm_num
      have hP : ¬ isUnexplained env pt = true := by
        intro hc
        exact h0 (of_decide_eq_true hc)
      simp only
      rw [hstep, ih, List.filter_cons_of_neg hP]

theorem GetTargetCost_eq_count (env : Env) (cloud : List PointT) :
    GetTargetCost env cloud =
      ((cloud.filter (isUnexplained env)).length : Int) := by
  unfold GetTargetCost static_cast_int
  have h := nn_score_eq env cloud 0
  simp only [Nat.cast_zero, zero_add] at h
  simp only
  rw [h, trunc_natCast]

/-- C24.  Whenever `GetTrueCost` returns a cost other than -1, the cost equals the number of
points of the re-rendered new-pixel cloud (the cloud built from the buffer that keeps the
rendered depth of the adjusted child at the new pixels) for which the radius search of the
observed cloud with the radius `kSensorResolution` finds no neighbour; the source cost adds
nothing. -/
theorem GetTrueCost_counts_unexplained (env : Env) (source_state child_state : State)
    (parent_id child_id cost : Int) (adj : State) (props : StateProperties)
    (h : GetTrueCost env source_state child_state parent_id child_id = some (cost, adj, props))
    (hc : cost ≠ -1) :
    ∃ source_depth_image succ_depth_buffer depth_image,
      GetTrueCost_adjust env source_state child_state = some (source_depth_image, adj) ∧
      GetDepthImage env adj = some (succ_depth_buffer, depth_image) ∧
      cost = (((env.getPointCloudFromBuffer
        (newPixelBuffer env depth_image source_depth_image succ_depth_buffer)).filter
          (isUnexplained env)).length : Int) := by
  unfold GetTrueCost at h
  cases ha : GetTrueCost_adjust env source_state child_state with
  | none => simp [ha] at h
  | some r =>
    obtain ⟨source_depth_image, adj0⟩ := r
    simp only [ha] at h
    split_ifs at h with hv
    · simp only [Option.some.injEq, Prod.mk.injEq] at h
      exact absurd h.1.symm hc
    · cases hd : GetDepthImage env adj0 with
      | none => simp [hd] at h
      | some d =>
        obtain ⟨succ_depth_buffer, depth_image⟩ := d
        simp only [hd] at h
        cases ho : IsOccluded env source_depth_image depth_image with
        | none => simp [ho] at h
        | some o =>
          obtain ⟨occ, idx, mn, mx⟩ := o
          simp only [ho] at h
          split_ifs at h with hocc
          · simp only [Option.some.injEq, Prod.mk.injEq] at h
            exact absurd h.1.symm hc
          · simp only [Option.some.injEq, Prod.mk.injEq, zero_add] at h
            obtain ⟨h1, h2, -⟩ := h
            subst h2
            refine ⟨source_depth_image, succ_depth_buffer, depth_image, rfl, hd, ?_⟩
            rw [← h1, GetTargetCost_eq_count]

/-- Witness for C24: the empty source state and the child that places model 0 at x = 0.1; the
re-rendered cloud has one point, and it has no observed neighbour. -/
theorem GetTrueCost_counts_unexplained_witness :
    ∃ source_depth_image succ_depth_buffer depth_image,
      GetTrueCost_adjust demoEnv State.empty (stateAt 0 0.1) =
        some (source_depth_image, stateAt 0 0.1) ∧
      GetDepthImage demoEnv (stateAt 0 0.1) = some (succ_depth_buffer, depth_image) ∧
      (1 : Int) = (((demoEnv.getPointCloudFromBuffer
        (newPixelBuffer demoEnv depth_image source_depth_image succ_depth_buffer)).filter
          (isUnexplained demoEnv)).length : Int) :=
  GetTrueCost_counts_unexplained demoEnv State.empty (stateAt 0 0.1) 1 2 1 (stateAt 0 0.1)
    ⟨500, 500⟩ (by decide!) (by decide)

theorem GetTrueCost_adjust_shape (env : Env) (source_state child_state : State)
    (source_depth_image : List Nat) (adj : State)
    (h : GetTrueCost_adjust env source_state child_state = some (source_depth_image, adj)) :
    ∃ pose_out, adj = { child_state with
      object_poses := child_state.object_poses.set (child_state.object_poses.length - 1)
        pose_out } := by
  unfold GetTrueCost_adjust at h
  split_ifs at h
  split at h
  · cases h
  · simp only at h
    split at h
    · cases h
    · simp only [Option.some.injEq, Prod.mk.injEq] at h
      exact ⟨_, h.2.symm⟩

theorem GetTrueCost_adjust_of_some (env : Env) (source_state child_state : State)
    (parent_id child_id cost : Int) (adj : State) (props : StateProperties)
    (h : GetTrueCost env source_state child_state parent_id child_id =
      some (cost, adj, props)) :
    ∃ source_depth_image,
      GetTrueCost_adjust env source_state child_state = some (source_depth_image, adj) := by
  unfold GetTrueCost at h
  cases ha : GetTrueCost_adjust env source_state child_state with
  | none => simp [ha] at h
  | some r =>
    obtain ⟨source_depth_image, adj0⟩ := r
    simp only [ha] at h
    split_ifs at h with hv
    · simp only [Option.some.injEq, Prod.mk.injEq] at h
      exact ⟨source_depth_image, by rw [h.2.1]⟩
    · cases hd : GetDepthImage env adj0 with
      | none => simp [hd] at h
      | some d =>
        simp only [hd] at h
        cases ho : IsOccluded env source_depth_image d.2 with
        | none => simp [ho] at h
        | some o =>
          simp only [ho] at h
          split_ifs at h with hocc
          · simp only [Option.some.injEq, Prod.mk.injEq] at h
            exact ⟨source_depth_image, by rw [h.2.1]⟩
          · simp only [Option.some.injEq, Prod.mk.injEq] at h
            exact ⟨source_depth_image, by rw [h.2.1]⟩

/-- C25.  The adjusted child state that `GetTrueCost` produces has the model ids (and the
discrete poses) of `child_state` in the same order, as many poses, and the same pose at every
position except the last one: the poses before the last one form the same list. -/
theorem GetTrueCost_adjusts_last_only (env : Env) (source_state child_state : State)
    (parent_id child_id cost : Int) (adj : State) (props : StateProperties)
    (h : GetTrueCost env source_state child_state parent_id child_id =
      some (cost, adj, props)) :
    adj.object_ids = child_state.object_ids ∧
    adj.disc_object_poses = child_state.disc_object_poses ∧
    adj.object_poses.length = child_state.object_poses.length ∧
    adj.object_poses.dropLast = child_state.object_poses.dropLast ∧
    ∀ i, i + 1 < child_state.object_poses.length →
      adj.object_poses.getD i default = child_state.object_poses.getD i default := by
  obtain ⟨sdi, ha⟩ := GetTrueCost_adjust_of_some env source_state child_state parent_id
    child_id cost adj props h
  obtain ⟨pose_out, rfl⟩ := GetTrueCost_adjust_shape env source_state child_state sdi adj ha
  refine ⟨rfl, rfl, by simp, ?_, ?_⟩
  · simp only
    apply List.ext_getElem
    · simp
    · intro i h1 h2
      simp only [List.length_dropLast, List.length_set] at h1
      rw [List.getElem_dropLast, List.getElem_dropLast, List.getElem_set_ne (by omega)]
  · intro i hi
    simp only
    rw [List.getD_eq_getElem?_getD, List.getD_eq_getElem?_getD,
      List.getElem?_set_ne (by omega)]

/-- Witness for C25: the child that places model 1 at x = -0.3 next to model 0 in `demoEnv`,
with an ICP that returns the pose unchanged. -/
theorem GetTrueCost_adjusts_last_only_witness :
    GetTrueCost demoEnv (stateAt 0 0.1) twoState 2 3 = some (0, twoState, ⟨300, 300⟩) ∧
    (twoState.object_ids = twoState.object_ids ∧
    twoState.disc_object_poses = twoState.disc_object_poses ∧
    twoState.object_poses.length = twoState.object_poses.length ∧
    twoState.object_poses.dropLast = twoState.object_poses.dropLast ∧
    ∀ i, i + 1 < twoState.object_poses.length →
      twoState.object_poses.getD i default = twoState.object_poses.getD i default) :=
  ⟨by decide!, GetTrueCost_adjusts_last_only demoEnv (stateAt 0 0.1) twoState 2 3 0 twoState
    ⟨300, 300⟩ (by decide!)⟩

/-! ### The yaw loop of the candidate generation -/

theorem IsValidPose_theta (env : Env) (s : State) (ii : Int) (x y theta : ℚ) :
    IsValidPose env s ii ⟨x, y, theta⟩ = IsValidPose env s ii ⟨x, y, 0⟩ := rfl

theorem GetSuccs_body_invalid (ord : StateMapT → StateMapT) (env : Env) (source_state : State)
    (ii : Int) (x y theta : ℚ) (c : Candidates)
    (h : IsValidPose env source_state ii ⟨x, y, 0⟩ = false) :
    GetSuccs_body ord env source_state ii x y theta c = (c, false) := by
  unfold GetSuccs_body
  simp only
  rw [IsValidPose_theta, h]
  rfl

theorem GetSuccs_body_valid (ord : StateMapT → StateMapT) (env : Env) (source_state : State)
    (ii : Int) (x y theta : ℚ) (c : Candidates)
    (h : IsValidPose env source_state ii ⟨x, y, 0⟩ = true) :
    (GetSuccs_body ord env source_state ii x y theta c).1.candidate_succs =
        c.candidate_succs ++ [childState source_state ii x y theta] ∧
      (GetSuccs_body ord env source_state ii x y theta c).1.candidate_succ_ids.length =
        c.candidate_succ_ids.length + 1 ∧
      (GetSuccs_body ord env source_state ii x y theta c).2 = (env.model ii).symmetric := by
  unfold GetSuccs_body
  simp only
  rw [IsValidPose_theta, h]
  simp [childState]

theorem forLTBreak_noBreak {σ : Type} (hi step : ℚ) (body : ℚ → σ → σ × Bool)
    (hnb : ∀ x s, (body x s).2 = false) (K : Nat)
    (hK : ∀ k : Nat, k < K ↔ (k : ℚ) * step < hi) :
    ∀ (d j fuel : Nat) (st : σ), j + d = K → d ≤ fuel →
      forLTBreak hi step body fuel ((j : ℚ) * step) st =
        some ((List.range' j d).foldl (fun s (k : Nat) => (body ((k : ℚ) * step) s).1) st) := by
  intro d
  induction d with
  | zero =>
    intro j fuel st hj hf
    have hnot : ¬ (j : ℚ) * step < hi := by
      rw [← hK]
      omega
    cases fuel with
    | zero => simp [forLTBreak, hnot]
    | succ f => simp [forLTBreak, hnot]
  | succ d ih =>
    intro j fuel st hj hf
    have hlt : (j : ℚ) * step < hi := by
      rw [← hK]
      omega
    cases fuel with
    | zero => omega
    | succ f =>
      have hx : (j : ℚ) * step + step = ((j + 1 : Nat) : ℚ) * step := by
        push_cast
        ring
      rw [forLTBreak, if_pos hlt]
      simp only [hnb, Bool.false_eq_true, if_false]
      rw [hx, ih (j + 1) f _ (by omega) (by omega)]
      simp [List.range'_succ]

theorem GetSuccs_body_foldl (ord : StateMapT → StateMapT) (env : Env) (source_state : State)
    (ii : Int) (x y step : ℚ) (h : IsValidPose env source_state ii ⟨x, y, 0⟩ = true)
    (L : List Nat) (c : Candidates) :
    (L.foldl (fun s (k : Nat) => (GetSuccs_body ord env source_state ii x y ((k : ℚ) * step) s).1)
        c).candidate_succs =
      c.candidate_succs ++ L.map (fun (k : Nat) => childState source_state ii x y ((k : ℚ) * step)) ∧
    (L.foldl (fun s (k : Nat) => (GetSuccs_body ord env source_state ii x y ((k : ℚ) * step) s).1)
        c).candidate_succ_ids.length = c.candidate_succ_ids.length + L.length := by
  induction L generalizing c with
  | nil => simp
  | cons k rest ih =>
    obtain ⟨h1, h2, -⟩ := GetSuccs_body_valid ord env source_state ii x y ((k : ℚ) * step) c h
    rw [List.foldl_cons]
    obtain ⟨i1, i2⟩ := ih (GetSuccs_body ord env source_state ii x y ((k : ℚ) * step) c).1
    rw [i1, i2, h1, h2]
    simp
    omega

theorem exists_sample_count (step hi : ℚ) (hstep : 0 < step) :
    ∃ K : Nat, ∀ k : Nat, k < K ↔ (k : ℚ) * step < hi := by
  have hex : ∃ k : Nat, hi ≤ (k : ℚ) * step := by
    obtain ⟨k, hk⟩ := exists_nat_gt (hi / step)
    exact ⟨k, le_of_lt ((div_lt_iff₀ hstep).mp hk)⟩
  classical
  refine ⟨Nat.find hex, fun k => ⟨fun hk => ?_, fun hk => ?_⟩⟩
  · exact not_le.mp (Nat.find_min hex hk)
  · by_contra hge
    have h1 := Nat.find_spec hex
    have h2 : ((Nat.find hex : Nat) : ℚ) ≤ (k : ℚ) := by
      exact_mod_cast not_lt.mp hge
    have h3 : ((Nat.find hex : Nat) : ℚ) * step ≤ (k : ℚ) * step :=
      mul_le_mul_of_nonneg_right h2 (le_of_lt hstep)
    linarith

/-- C26.  Take the yaw loop of `GetSuccs` (the `for (theta ...)` loop of lines 835-858) at a
grid sample `(x, y)` for a model `ii`, and let `K` be the number of yaw samples
`0, theta_res, 2 * theta_res, ...` below `2 * M_PI`.  The loop terminates and appends to
`candidate_succs`: nothing when the pruning test `IsValidPose` fails at `(x, y)`; for a model
flagged symmetric exactly one candidate, with theta = 0; for a model not flagged symmetric
one candidate for every one of the `K` yaw samples, in order.  `candidate_succ_ids` grows by
the same number of entries. -/
theorem GetSuccs_yaw_loop (ord : StateMapT → StateMapT) (env : Env) (source_state : State)
    (ii : Int) (x y : ℚ) (c : Candidates) (hres : 0 < env.env_params_.theta_res) :
    ∃ K : Nat, (∀ k : Nat, k < K ↔ (k : ℚ) * env.env_params_.theta_res < 2 * M_PI) ∧
      ∀ fuel, K ≤ fuel →
        ∃ c1, forLTBreak (2 * M_PI) env.env_params_.theta_res
            (fun theta c3 => GetSuccs_body ord env source_state ii x y theta c3) fuel 0 c =
              some c1 ∧
          c1.candidate_succs = c.candidate_succs ++
            (if IsValidPose env source_state ii ⟨x, y, 0⟩ = true then
              if (env.model ii).symmetric = true then
                [childState source_state ii x y 0]
              else
                (yawSamples env.env_params_.theta_res K).map (childState source_state ii x y)
            else []) ∧
          c1.candidate_succ_ids.length = c.candidate_succ_ids.length +
            (if IsValidPose env source_state ii ⟨x, y, 0⟩ = true then
              if (env.model ii).symmetric = true then 1 else K
            else 0) := by
  obtain ⟨K, hK⟩ := exists_sample_count env.env_params_.theta_res (2 * M_PI) hres
  refine ⟨K, hK, fun fuel hfuel => ?_⟩
  have hpi : (0 : ℚ) < 2 * M_PI := by
    unfold M_PI
    norm_num
  have hK0 : 0 < K := by
    rw [hK]
    simpa using hpi
  have hstart : ((0 : Nat) : ℚ) * env.env_params_.theta_res = 0 := by simp
  by_cases hv : IsValidPose env source_state ii ⟨x, y, 0⟩ = true
  · by_cases hs : (env.model ii).symmetric = true
    · obtain ⟨h1, h2, h3⟩ := GetSuccs_body_valid ord env source_state ii x y 0 c hv
      cases fuel with
      | zero => omega
      | succ f =>
        refine ⟨(GetSuccs_body ord env source_state ii x y 0 c).1, ?_, ?_, ?_⟩
        · rw [forLTBreak, if_pos hpi]
          simp only [h3, hs, if_true]
        · rw [h1, if_pos hv, if_pos hs]
        · rw [h2, if_pos hv, if_pos hs]
    · have hnb : ∀ (theta : ℚ) (s : Candidates),
          ((fun theta c3 => GetSuccs_body ord env source_state ii x y theta c3) theta s).2 =
            false := by
        intro theta s
        have := (GetSuccs_body_valid ord env source_state ii x y theta s hv).2.2
        simp only
        rw [this]
        simpa using hs
      have hrun := forLTBreak_noBreak (2 * M_PI) env.env_params_.theta_res
        (fun theta c3 => GetSuccs_body ord env source_state ii x y theta c3) hnb K hK K 0 fuel c
        (by omega) hfuel
      rw [hstart] at hrun
      obtain ⟨f1, f2⟩ := GetSuccs_body_foldl ord env source_state ii x y
        env.env_params_.theta_res hv (List.range' 0 K) c
      refine ⟨_, hrun, ?_, ?_⟩
      · rw [if_pos hv, if_neg hs, f1]
        simp [yawSamples, List.map_map, Function.comp_def]
      · rw [if_pos hv, if_neg hs, f2]
        simp
  · have hv0 : IsValidPose env source_state ii ⟨x, y, 0⟩ = false := by simpa using hv
    have hnb : ∀ (theta : ℚ) (s : Candidates),
        ((fun theta c3 => GetSuccs_body ord env source_state ii x y theta c3) theta s).2 =
          false := by
      intro theta s
      simp only
      rw [GetSuccs_body_invalid ord env source_state ii x y theta s hv0]
    have hrun := forLTBreak_noBreak (2 * M_PI) env.env_params_.theta_res
      (fun theta c3 => GetSuccs_body ord env source_state ii x y theta c3) hnb K hK K 0 fuel c
      (by omega) hfuel
    rw [hstart] at hrun
    have hfold : ∀ (L : List Nat) (s : Candidates),
        L.foldl (fun s (k : Nat) => (GetSuccs_body ord env source_state ii x y
          ((k : ℚ) * env.env_params_.theta_res) s).1) s = s := by
      intro L
      induction L with
      | nil => intro s; rfl
      | cons k rest ih =>
        intro s
        rw [List.foldl_cons, GetSuccs_body_invalid ord env source_state ii x y _ s hv0]
        exact ih s
    refine ⟨_, hrun, ?_, ?_⟩
    · rw [if_neg hv, hfold]
      simp
    · rw [if_neg hv, hfold]
      simp

/-- Witness for C26: the grid sample (0, 0) of `tinyEnv`, whose yaw resolution `M_PI` gives the
two yaw samples 0 and `M_PI`.  The non-symmetric model 0 yields two candidates, the symmetric
model 1 one candidate with theta = 0. -/
theorem GetSuccs_yaw_loop_witness :
    (forLTBreak (2 * M_PI) tinyEnv.env_params_.theta_res
      (fun theta c3 => GetSuccs_body id tinyEnv State.empty 0 0 0 theta c3) 2 0
        ⟨initialStateMap, [], []⟩).map (fun c => c.candidate_succs) =
      some [childState State.empty 0 0 0 0, childState State.empty 0 0 0 M_PI] ∧
    (forLTBreak (2 * M_PI) tinyEnv.env_params_.theta_res
      (fun theta c3 => GetSuccs_body id tinyEnv State.empty 1 0 0 theta c3) 2 0
        ⟨initialStateMap, [], []⟩).map (fun c => c.candidate_succs) =
      some [childState State.empty 1 0 0 0] ∧
    ∃ K : Nat, (∀ k : Nat, k < K ↔ (k : ℚ) * tinyEnv.env_params_.theta_res < 2 * M_PI) ∧
      ∀ fuel, K ≤ fuel →
        ∃ c1, forLTBreak (2 * M_PI) tinyEnv.env_params_.theta_res
            (fun theta c3 => GetSuccs_body id tinyEnv State.empty 0 0 0 theta c3) fuel 0
              ⟨initialStateMap, [], []⟩ = some c1 ∧
          c1.candidate_succs = [] ++
            (if IsValidPose tinyEnv State.empty 0 ⟨0, 0, 0⟩ = true then
              if (tinyEnv.model 0).symmetric = true then
                [childState State.empty 0 0 0 0]
              else
                (yawSamples tinyEnv.env_params_.theta_res K).map (childState State.empty 0 0 0)
            else []) ∧
          c1.candidate_succ_ids.length = ([] : List Int).length +
            (if IsValidPose tinyEnv State.empty 0 ⟨0, 0, 0⟩ = true then
              if (tinyEnv.model 0).symmetric = true then 1 else K
            else 0) :=
  ⟨by decide!, by decide!,
    GetSuccs_yaw_loop id tinyEnv State.empty 0 0 0 ⟨initialStateMap, [], []⟩ (by decide!)⟩

/-! ### Wire round trip -/

theorem allSome_eq_some {α : Type} (l : List (Option α)) (r : List α)
    (h : allSome l = some r) : l = r.map some := by
  induction l generalizing r with
  | nil =>
    simp only [allSome, Option.some.injEq] at h
    subst h
    rfl
  | cons a rest ih =>
    cases a with
    | none => simp [allSome] at h
    | some a =>
      simp only [allSome, Option.map_eq_some'] at h
      obtain ⟨r1, h1, h2⟩ := h
      subst h2
      rw [ih r1 h1]
      rfl

theorem countP_range_prefix (p : Nat → Bool) (v c : Nat) (hc : c ≤ v)
    (hp : ∀ j, j < v → (p j = true ↔ j < c)) : (List.range v).countP p = c := by
  induction v generalizing c with
  | zero =>
    have : c = 0 := by omega
    subst this
    rfl
  | succ v ih =>
    rw [List.range_succ, List.countP_append]
    by_cases hcv : c = v + 1
    · subst hcv
      have h1 := ih v (le_refl _) (fun j hj => by
        rw [hp j (by omega)]
        constructor
        · intro _
          exact hj
        · intro _
          omega)
      have h2 : p v = true := (hp v (by omega)).mpr (by omega)
      rw [h1]
      simp [h2]
    · have h1 := ih c (by omega) (fun j hj => hp j (by omega))
      have h2 : ¬ p v = true := by
        rw [hp v (by omega)]
        omega
      rw [h1]
      simp [h2]

theorem flatten_getD_uniform {α : Type} (v : Nat) (d : α) (L : List (List α))
    (hL : ∀ l ∈ L, l.length = v) (q i : Nat) (hq : q < L.length) (hi : i < v) :
    L.flatten.getD (q * v + i) d = (L.getD q []).getD i d := by
  induction L generalizing q with
  | nil => simp at hq
  | cons l rest ih =>
    have hl : l.length = v := hL l (List.mem_cons_self _ _)
    rw [List.flatten_cons]
    cases q with
    | zero =>
      simp only [Nat.zero_mul, Nat.zero_add, List.getD_cons_zero]
      rw [List.getD_eq_getElem?_getD, List.getD_eq_getElem?_getD,
        List.getElem?_append_left (by omega)]
    | succ q =>
      have hrest := ih (fun l1 h1 => hL l1 (List.mem_cons_of_mem _ h1)) q
        (by simpa using hq)
      rw [List.getD_cons_succ, ← hrest]
      rw [List.getD_eq_getElem?_getD, List.getD_eq_getElem?_getD,
        List.getElem?_append_right (by rw [hl, Nat.succ_mul]; omega)]
      congr 2
      rw [hl, Nat.succ_mul]
      omega

theorem scatterBlock_getD {α : Type} (buf : List α) (val r j : Nat) (d : α) (hj : j < val) :
    (scatterBlock buf val r).getD j d = buf.getD (r * val + j) d := by
  unfold scatterBlock
  rw [List.getD_eq_getElem?_getD, List.getD_eq_getElem?_getD, List.getElem?_take_of_lt hj,
    List.getElem?_drop]

theorem GetSuccs_sendbuf_getD (source_state : State) (source_state_id : Int)
    (candidate_succ_ids : List Int) (candidate_succs : List State) (nm : Int) (k : Nat) :
    (GetSuccs_sendbuf source_state source_state_id candidate_succ_ids candidate_succs
        nm).getD k paddingSendMsg =
      if k < candidate_succ_ids.length then
        SendbufPopulate source_state (candidate_succs.getD k State.empty) source_state_id
          (candidate_succ_ids.getD k 0)
      else
        paddingSendMsg := by
  unfold GetSuccs_sendbuf
  simp only
  rw [List.getD_eq_getElem?_getD]
  by_cases hk : k < candidate_succ_ids.length
  · rw [if_pos hk, List.getElem?_append_left (by simpa using hk)]
    simp [hk]
  · rw [if_neg hk, List.getElem?_append_right (by simpa using hk)]
    cases hx : (List.replicate (nm.toNat - candidate_succ_ids.length) paddingSendMsg)[k -
        (List.map (fun ii => SendbufPopulate source_state (candidate_succs.getD ii State.empty)
          source_state_id (candidate_succ_ids.getD ii 0))
          (List.range candidate_succ_ids.length)).length]? with
    | none => rfl
    | some m =>
      have := List.getElem?_mem hx
      rw [List.mem_replicate] at this
      rw [this.2]
      rfl

theorem GetSuccs_sendbuf_valid (source_state : State) (source_state_id : Int)
    (candidate_succ_ids : List Int) (candidate_succs : List State) (nm : Int) (k : Nat) :
    ((GetSuccs_sendbuf source_state source_state_id candidate_succ_ids candidate_succs
        nm).getD k paddingSendMsg).valid = 1 ↔ k < candidate_succ_ids.length := by
  rw [GetSuccs_sendbuf_getD]
  by_cases hk : k < candidate_succ_ids.length
  · rw [if_pos hk]
    simp [SendbufPopulate, hk]
  · rw [if_neg hk]
    simp [paddingSendMsg, hk]
theorem GetRecvdState_count_le (dummy : List SendMsg) (val : Nat) :
    (GetRecvdState dummy val).1 ≤ val := by
  unfold GetRecvdState
  simp only
  have := List.countP_le_length (fun i => decide ((dummy.getD i paddingSendMsg).valid = 1))
    (l := List.range val)
  simpa using this

theorem workerCosts_some (env : Env) (dummy : List SendMsg) (val : Nat) (rb : List RecvMsg)
    (h : workerCosts env dummy val = some rb) :
    rb.length = val ∧
    ∀ i, i < (GetRecvdState dummy val).1 →
      ∃ cost adj props,
        GetTrueCost env (GetRecvdState_one (dummy.getD i paddingSendMsg)).1
          (GetRecvdState_one (dummy.getD i paddingSendMsg)).2.1
          (GetRecvdState_one (dummy.getD i paddingSendMsg)).2.2.1
          (GetRecvdState_one (dummy.getD i paddingSendMsg)).2.2.2 = some (cost, adj, props) ∧
        rb.getD i paddingRecvMsg = RecvbufPopulate adj props cost := by
  have hle := GetRecvdState_count_le dummy val
  unfold workerCosts at h
  simp only at h
  split at h
  · cases h
  · rename_i results hres
    simp only [Option.some.injEq] at h
    subst h
    refine ⟨by simp, fun i hi => ?_⟩
    have hmap := allSome_eq_some _ _ hres
    have hiv : i < val := by omega
    have hlen : results.length = (GetRecvdState dummy val).1 := by
      have := congrArg List.length hmap
      simpa using this.symm
    have hget := congrArg (fun l => l[i]?) hmap
    simp only [List.getElem?_map, List.getElem?_range hi, Option.map_some'] at hget
    obtain ⟨e, hri⟩ : ∃ e, results[i]? = some e :=
      ⟨_, List.getElem?_eq_getElem (by omega)⟩
    rw [hri, Option.map_some', Option.some.injEq] at hget
    have h2 : (GetRecvdState dummy val).2.getD i (State.empty, State.empty, 0, 0) =
        GetRecvdState_one (dummy.getD i paddingSendMsg) := by
      unfold GetRecvdState
      simp [hiv]
    rw [h2] at hget
    refine ⟨e.1, e.2.1, e.2.2, hget, ?_⟩
    rw [List.getD_eq_getElem?_getD, List.getElem?_map, List.getElem?_range hiv]
    simp only [Option.map_some', Option.getD_some, hri]
theorem next_multiple_val (n : Nat) (num_proc : Int) (hP : 1 ≤ num_proc)
    (hb : (n : Int) + num_proc < 2 ^ 31) :
    Int.tmod (next_multiple n num_proc) num_proc = 0 ∧
    Int.tdiv (next_multiple n num_proc) num_proc = ((n / num_proc.toNat + 1 : Nat) : Int) ∧
    n < num_proc.toNat * (n / num_proc.toNat + 1) := by
  have hp0 : 0 < num_proc.toNat := by omega
  have hcast : ((num_proc.toNat : Nat) : Int) = num_proc := Int.toNat_of_nonneg (by omega)
  have hnm : next_multiple n num_proc =
      num_proc * ((n / num_proc.toNat + 1 : Nat) : Int) := by
    rw [next_multiple_eq n num_proc hP hb, next_multiple_eq_mul n _ hp0, Nat.cast_mul, hcast]
  have hlt : n < num_proc.toNat * (n / num_proc.toNat + 1) := by
    have h1 := Nat.div_add_mod n num_proc.toNat
    have h2 := Nat.mod_lt n hp0
    rw [Nat.mul_add, Nat.mul_one]
    omega
  refine ⟨?_, ?_, hlt⟩
  · rw [hnm, Int.tmod_eq_emod (by positivity) (by omega)]
    exact Int.mul_emod_right _ _
  · rw [hnm, Int.tdiv_eq_ediv (by positivity) (by omega)]
    exact Int.mul_ediv_cancel_left _ (by omega)

theorem GetSuccs_distribute_some (env : Env) (source_state : State) (source_state_id : Int)
    (candidate_succ_ids : List Int) (candidate_succs : List State)
    (results : List (State × StateProperties × Int))
    (h : GetSuccs_distribute env source_state source_state_id candidate_succ_ids
      candidate_succs = some results) :
    Int.tmod (next_multiple candidate_succ_ids.length env.num_proc) env.num_proc = 0 ∧
    0 < GetSuccs_val env candidate_succ_ids.length ∧
    ∃ recvbufs : List (List RecvMsg),
      ((List.range env.num_proc.toNat).map fun r =>
        workerCosts env
          (GetSuccs_block env source_state source_state_id candidate_succ_ids candidate_succs r)
          (GetSuccs_val env candidate_succ_ids.length).toNat) = recvbufs.map some ∧
      results = GetRecvdResult recvbufs.flatten candidate_succ_ids.length := by
  unfold GetSuccs_distribute at h
  simp only at h
  split_ifs at h with h1 h2
  split at h
  · cases h
  · rename_i recvbufs hres
    simp only [Option.some.injEq] at h
    exact ⟨not_not.mp h1, h2, recvbufs, allSome_eq_some _ _ hres, h.symm⟩

theorem GetSuccs_block_count (env : Env) (source_state : State) (source_state_id : Int)
    (candidate_succ_ids : List Int) (candidate_succs : List State) (r : Nat) :
    (∀ j, j < (GetSuccs_val env candidate_succ_ids.length).toNat →
      (((GetSuccs_block env source_state source_state_id candidate_succ_ids candidate_succs
          r).getD j paddingSendMsg).valid = 1 ↔
        j < min (GetSuccs_val env candidate_succ_ids.length).toNat
          (candidate_succ_ids.length -
            r * (GetSuccs_val env candidate_succ_ids.length).toNat))) ∧
    (GetRecvdState
      (GetSuccs_block env source_state source_state_id candidate_succ_ids candidate_succs r)
      (GetSuccs_val env candidate_succ_ids.length).toNat).1 =
        min (GetSuccs_val env candidate_succ_ids.length).toNat
          (candidate_succ_ids.length -
            r * (GetSuccs_val env candidate_succ_ids.length).toNat) := by
  have hvalid : ∀ j, j < (GetSuccs_val env candidate_succ_ids.length).toNat →
      (((GetSuccs_block env source_state source_state_id candidate_succ_ids candidate_succs
          r).getD j paddingSendMsg).valid = 1 ↔
        j < min (GetSuccs_val env candidate_succ_ids.length).toNat
          (candidate_succ_ids.length -
            r * (GetSuccs_val env candidate_succ_ids.length).toNat)) := by
    intro j hj
    unfold GetSuccs_block
    rw [scatterBlock_getD _ _ _ _ _ hj, GetSuccs_sendbuf_valid]
    omega
  refine ⟨hvalid, ?_⟩
  unfold GetRecvdState
  simp only
  apply countP_range_prefix _ _ _ (Nat.min_le_left _ _)
  intro j hj
  rw [decide_eq_true_iff]
  exact hvalid j hj

/-! ### Assertions, collective calls and alignment of the results -/

theorem GetSuccs_worker_some (env : Env) (source_state : State) (source_state_id : Int)
    (candidate_succ_ids : List Int) (candidate_succs : List State)
    (recvbufs : List (List RecvMsg))
    (hmap : ((List.range env.num_proc.toNat).map fun r =>
      workerCosts env
        (GetSuccs_block env source_state source_state_id candidate_succ_ids candidate_succs r)
        (GetSuccs_val env candidate_succ_ids.length).toNat) = recvbufs.map some)
    (r : Nat) (hr : r < env.num_proc.toNat) :
    recvbufs.length = env.num_proc.toNat ∧
    workerCosts env
      (GetSuccs_block env source_state source_state_id candidate_succ_ids candidate_succs r)
      (GetSuccs_val env candidate_succ_ids.length).toNat = some (recvbufs.getD r []) := by
  have hlen : recvbufs.length = env.num_proc.toNat := by
    have := congrArg List.length hmap
    simpa using this.symm
  refine ⟨hlen, ?_⟩
  have hget := congrArg (fun l => l[r]?) hmap
  simp only [List.getElem?_map, List.getElem?_range hr, Option.map_some'] at hget
  obtain ⟨e, hre⟩ : ∃ e, recvbufs[r]? = some e := ⟨_, List.getElem?_eq_getElem (by omega)⟩
  rw [hre, Option.map_some', Option.some.injEq] at hget
  rw [hget, List.getD_eq_getElem?_getD, hre]
  rfl

/-- C28.  In every expansion whose distributed evaluation returns (with `N + P` in the range
of `int`), the valid entries of the block scattered to each process are the first entries of
that block, and for every `k < N` the `k`-th gathered result is the `GetTrueCost` result of
the `k`-th candidate: the cost and the properties that `GetRecvdResult` reads at index `k` are
those that `GetTrueCost` returns on the message of `candidate_succ_ids[k]`, and the state is
the one `RecvbufPopulate` packed from its adjusted state. -/
theorem GetSuccs_results_aligned (env : Env) (source_state : State) (source_state_id : Int)
    (candidate_succ_ids : List Int) (candidate_succs : List State)
    (results : List (State × StateProperties × Int))
    (hP : 1 ≤ env.num_proc)
    (hb : (candidate_succ_ids.length : Int) + env.num_proc < 2 ^ 31)
    (h : GetSuccs_distribute env source_state source_state_id candidate_succ_ids
      candidate_succs = some results) :
    (∀ r, ∃ c, c ≤ (GetSuccs_val env candidate_succ_ids.length).toNat ∧
      ∀ j, j < (GetSuccs_val env candidate_succ_ids.length).toNat →
        (((GetSuccs_block env source_state source_state_id candidate_succ_ids candidate_succs
          r).getD j paddingSendMsg).valid = 1 ↔ j < c)) ∧
    ∀ k, k < candidate_succ_ids.length →
      ∃ cost adj props,
        GetTrueCost env
          (GetRecvdState_one (SendbufPopulate source_state (candidate_succs.getD k State.empty)
            source_state_id (candidate_succ_ids.getD k 0))).1
          (GetRecvdState_one (SendbufPopulate source_state (candidate_succs.getD k State.empty)
            source_state_id (candidate_succ_ids.getD k 0))).2.1
          source_state_id (candidate_succ_ids.getD k 0) = some (cost, adj, props) ∧
        results[k]? = some (GetRecvdResult_one (RecvbufPopulate adj props cost)) ∧
        (GetRecvdResult_one (RecvbufPopulate adj props cost)).2 = (props, cost) := by
  obtain ⟨-, hv, hlt⟩ := next_multiple_val candidate_succ_ids.length env.num_proc hP hb
  obtain ⟨-, -, recvbufs, hmap, hres⟩ := GetSuccs_distribute_some env source_state
    source_state_id candidate_succ_ids candidate_succs results h
  have hval : (GetSuccs_val env candidate_succ_ids.length).toNat =
      candidate_succ_ids.length / env.num_proc.toNat + 1 := by
    unfold GetSuccs_val
    rw [hv]
    exact Int.toNat_natCast _
  constructor
  · intro r
    exact ⟨_, Nat.min_le_left _ _, (GetSuccs_block_count env source_state source_state_id
      candidate_succ_ids candidate_succs r).1⟩
  · intro k hk
    have hv0 : 0 < (GetSuccs_val env candidate_succ_ids.length).toNat := by
      rw [hval]
      exact Nat.succ_pos _
    have hdm := Nat.div_add_mod k (GetSuccs_val env candidate_succ_ids.length).toNat
    have hi := Nat.mod_lt k hv0
    have hq : k / (GetSuccs_val env candidate_succ_ids.length).toNat < env.num_proc.toNat := by
      apply Nat.div_lt_of_lt_mul
      rw [hval, Nat.mul_comm]
      omega
    have hk' : k / (GetSuccs_val env candidate_succ_ids.length).toNat *
        (GetSuccs_val env candidate_succ_ids.length).toNat +
        k % (GetSuccs_val env candidate_succ_ids.length).toNat = k := by
      rw [Nat.mul_comm]
      exact hdm
    obtain ⟨hlen, hw⟩ := GetSuccs_worker_some env source_state source_state_id
      candidate_succ_ids candidate_succs recvbufs hmap _ hq
    obtain ⟨-, hrb⟩ := workerCosts_some env _ _ _ hw
    have hcount := (GetSuccs_block_count env source_state source_state_id candidate_succ_ids
      candidate_succs (k / (GetSuccs_val env candidate_succ_ids.length).toNat)).2
    have hic : k % (GetSuccs_val env candidate_succ_ids.length).toNat <
        (GetRecvdState (GetSuccs_block env source_state source_state_id candidate_succ_ids
          candidate_succs (k / (GetSuccs_val env candidate_succ_ids.length).toNat))
          (GetSuccs_val env candidate_succ_ids.length).toNat).1 := by
      rw [hcount]
      omega
    obtain ⟨cost, adj, props, hcost, hget⟩ := hrb _ hic
    have hmsg : (GetSuccs_block env source_state source_state_id candidate_succ_ids
        candidate_succs (k / (GetSuccs_val env candidate_succ_ids.length).toNat)).getD
          (k % (GetSuccs_val env candidate_succ_ids.length).toNat) paddingSendMsg =
        SendbufPopulate source_state (candidate_succs.getD k State.empty) source_state_id
          (candidate_succ_ids.getD k 0) := by
      unfold GetSuccs_block
      rw [scatterBlock_getD _ _ _ _ _ hi, hk', GetSuccs_sendbuf_getD, if_pos hk]
    rw [hmsg] at hcost
    have hids : (GetRecvdState_one (SendbufPopulate source_state
        (candidate_succs.getD k State.empty) source_state_id
        (candidate_succ_ids.getD k 0))).2.2 =
        (source_state_id, candidate_succ_ids.getD k 0) := by
      simp [GetRecvdState_one, SendbufPopulate]
    rw [hids] at hcost
    refine ⟨cost, adj, props, hcost, ?_, by simp [GetRecvdResult_one, RecvbufPopulate]⟩
    have hall : ∀ l ∈ recvbufs, l.length = (GetSuccs_val env candidate_succ_ids.length).toNat := by
      intro l hl
      obtain ⟨r, hr, hlr⟩ := List.getElem_of_mem hl
      have hr' : r < env.num_proc.toNat := by
        rw [← hlen]
        exact hr
      obtain ⟨-, hwr⟩ := GetSuccs_worker_some env source_state source_state_id
        candidate_succ_ids candidate_succs recvbufs hmap r hr'
      have hgd : recvbufs.getD r [] = l := by
        rw [List.getD_eq_getElem?_getD, List.getElem?_eq_getElem hr, hlr]
        rfl
      rw [hgd] at hwr
      exact (workerCosts_some env _ _ _ hwr).1
    have hflat := flatten_getD_uniform (GetSuccs_val env candidate_succ_ids.length).toNat
      paddingRecvMsg recvbufs hall _ _ (by rw [hlen]; exact hq) hi
    rw [hk', hget] at hflat
    rw [hres]
    unfold GetRecvdResult
    rw [List.getElem?_map, List.getElem?_range hk, Option.map_some', hflat]

/-- Witness for C28: the expansion of the start state of `tinyEnv` with its three candidates on
a pool of two processes; the gathered costs are 1, 1 and 0, in candidate order. -/
theorem GetSuccs_results_aligned_witness :
    ∃ results, GetSuccs_distribute tinyEnv State.empty 1 [2, 3, 4]
        [stateAt 0 0, childState State.empty 0 0 0 M_PI, stateAt 1 0] = some results ∧
      results.map (fun r => r.2.2) = [1, 1, 0] ∧
      ((∀ r, ∃ c, c ≤ (GetSuccs_val tinyEnv [2, 3, 4].length).toNat ∧
        ∀ j, j < (GetSuccs_val tinyEnv [2, 3, 4].length).toNat →
          (((GetSuccs_block tinyEnv State.empty 1 [2, 3, 4]
            [stateAt 0 0, childState State.empty 0 0 0 M_PI, stateAt 1 0]
              r).getD j paddingSendMsg).valid = 1 ↔ j < c)) ∧
      ∀ k, k < [2, 3, 4].length →
        ∃ cost adj props,
          GetTrueCost tinyEnv
            (GetRecvdState_one (SendbufPopulate State.empty
              ([stateAt 0 0, childState State.empty 0 0 0 M_PI, stateAt 1 0].getD k State.empty)
              1 ([2, 3, 4].getD k 0))).1
            (GetRecvdState_one (SendbufPopulate State.empty
              ([stateAt 0 0, childState State.empty 0 0 0 M_PI, stateAt 1 0].getD k State.empty)
              1 ([2, 3, 4].getD k 0))).2.1
            1 ([2, 3, 4].getD k 0) = some (cost, adj, props) ∧
          results[k]? = some (GetRecvdResult_one (RecvbufPopulate adj props cost)) ∧
          (GetRecvdResult_one (RecvbufPopulate adj props cost)).2 = (props, cost)) := by
  have hsome : (GetSuccs_distribute tinyEnv State.empty 1 [2, 3, 4]
      [stateAt 0 0, childState State.empty 0 0 0 M_PI, stateAt 1 0]).isSome = true := by
    decide!
  obtain ⟨results, he⟩ := Option.isSome_iff_exists.mp hsome
  have hval : (GetSuccs_distribute tinyEnv State.empty 1 [2, 3, 4]
      [stateAt 0 0, childState State.empty 0 0 0 M_PI, stateAt 1 0]).map
        (fun l => l.map (fun r => r.2.2)) = some [1, 1, 0] := by decide!
  rw [he] at hval
  exact ⟨results, he, Option.some.inj hval,
    GetSuccs_results_aligned tinyEnv State.empty 1 [2, 3, 4]
      [stateAt 0 0, childState State.empty 0 0 0 M_PI, stateAt 1 0] results (by decide)
      (by decide) he⟩

end SbplPerception
